import Mathlib

/-!
# Todo service and users service: a shallow embedding

The two Go programs `services/todo-service/main.go` and
`services/users-service/main.go` are embedded as pure Lean functions.

* A Go `string` is a Lean `String`; the library helpers work on its list of
  characters so that every definition is structurally recursive.
* `int64` values are `Int`; the only arithmetic on them happens inside
  `strconv.ParseInt`, which is modelled with its range checks.
* A Go `(value, error)` result keeps both components; an `error` is an
  `Option String` holding the text of `err.Error()`.
* The relational table is a list of rows plus the AUTO_INCREMENT counter.
  A statement either fails with an error text supplied by the environment or
  executes against the table.
* The outbound HTTP GET of `fetchUserByID` is an outcome supplied by the
  environment.
-/

namespace GoLib

/-- The white space of `unicode.IsSpace`, which is also the table `space` of
`fmt/scan.go`. -/
def isSpace (c : Char) : Bool :=
  let n := c.toNat
  (0x0009 ≤ n && n ≤ 0x000d) || n == 0x0020 || n == 0x0085 || n == 0x00a0 ||
  n == 0x1680 || (0x2000 ≤ n && n ≤ 0x200a) || (0x2028 ≤ n && n ≤ 0x2029) ||
  n == 0x202f || n == 0x205f || n == 0x3000

/-- Characters of `strings.TrimSpace`: leading and trailing white space removed. -/
def trimSpaceChars (cs : List Char) : List Char :=
  ((cs.dropWhile isSpace).reverse.dropWhile isSpace).reverse

/-- Go `strings.TrimSpace`. -/
def trimSpace (s : String) : String :=
  String.mk (trimSpaceChars s.data)

/-- Go `strings.HasPrefix`. -/
def hasPrefix (s pfx : String) : Bool :=
  pfx.data.isPrefixOf s.data

/-- Go `strings.TrimPrefix`. -/
def trimPrefix (s pfx : String) : String :=
  if hasPrefix s pfx then String.mk (s.data.drop pfx.data.length) else s

/-- The two error kinds of `strconv.NumError` that matter here. -/
inductive NumError where
  | errSyntax
  | errRange
  deriving DecidableEq, Repr

def maxUint64 : Nat := 2 ^ 64 - 1

/-- Value of a digit character in `strconv.ParseUint`: `0`-`9`, then letters of
either case as 10..35. -/
def digitVal (c : Char) : Option Nat :=
  let n := c.toNat
  if 48 ≤ n ∧ n ≤ 57 then some (n - 48)
  else if 97 ≤ n ∧ n ≤ 122 then some (n - 97 + 10)
  else if 65 ≤ n ∧ n ≤ 90 then some (n - 65 + 10)
  else none

/-- Go `lower(c) == x` for an ASCII lower-case letter `x`. -/
def lowerIs (c x : Char) : Bool :=
  c == x || c.toNat + 32 == x.toNat

/-- The digit loop of `strconv.ParseUint`: returns the value and whether an
underscore was seen. -/
def parseUintLoop (base : Nat) (base0 : Bool) :
    List Char → Nat → Bool → Except NumError (Nat × Bool)
  | [], n, us => .ok (n, us)
  | c :: cs, n, us =>
    if c = '_' ∧ base0 = true then parseUintLoop base base0 cs n true
    else
      match digitVal c with
      | none => .error .errSyntax
      | some d =>
        if d ≥ base then .error .errSyntax
        else if n ≥ maxUint64 / base + 1 then .error .errRange
        else if n * base + d > maxUint64 then .error .errRange
        else parseUintLoop base base0 cs (n * base + d) us

/-- The scan of `strconv.underscoreOK` after the optional sign and base prefix;
`saw` is the last kind of character seen (`'0'` digit, `'_'` underscore,
`'^'` start, `'!'` other). -/
def underscoreScan (hex : Bool) : List Char → Char → Bool
  | [], saw => saw != '_'
  | c :: cs, saw =>
    if ('0' ≤ c ∧ c ≤ '9') ∨ (hex = true ∧ (('a' ≤ c ∧ c ≤ 'f') ∨ ('A' ≤ c ∧ c ≤ 'F'))) then
      underscoreScan hex cs '0'
    else if c = '_' then
      if saw != '0' then false else underscoreScan hex cs '_'
    else if saw = '_' then false
    else underscoreScan hex cs '!'

/-- Go `strconv.underscoreOK`. -/
def underscoreOK (s : List Char) : Bool :=
  let s := match s with
    | c :: cs => if c = '-' ∨ c = '+' then cs else s
    | [] => s
  match s with
  | c0 :: c1 :: cs =>
    if c0 = '0' ∧ (lowerIs c1 'b' ∨ lowerIs c1 'o' ∨ lowerIs c1 'x') then
      underscoreScan (lowerIs c1 'x') cs '0'
    else underscoreScan false s '^'
  | _ => underscoreScan false s '^'

/-- Go `strconv.ParseUint(s, base, 64)` for `base` 0 or 2..36. -/
def parseUint (s : List Char) (base : Nat) : Nat × Option NumError :=
  if s = [] then (0, some .errSyntax)
  else
    let base0 := base == 0
    let (b, digits) : Nat × List Char :=
      if base0 then
        match s with
        | '0' :: c1 :: c2 :: cs =>
          if lowerIs c1 'b' then (2, c2 :: cs)
          else if lowerIs c1 'o' then (8, c2 :: cs)
          else if lowerIs c1 'x' then (16, c2 :: cs)
          else (8, c1 :: c2 :: cs)
        | '0' :: cs => (8, cs)
        | _ => (10, s)
      else (base, s)
    match parseUintLoop b base0 digits 0 false with
    | .error .errSyntax => (0, some .errSyntax)
    | .error .errRange => (maxUint64, some .errRange)
    | .ok (n, us) =>
      if us = true ∧ underscoreOK s = false then (0, some .errSyntax) else (n, none)

/-- Go `strconv.ParseInt(s, base, 64)`. -/
def parseInt (s : List Char) (base : Nat) : Int × Option NumError :=
  match s with
  | [] => (0, some .errSyntax)
  | c :: cs =>
    let neg := c == '-'
    let rest := if c = '+' ∨ c = '-' then cs else s
    let (un, err) := parseUint rest base
    if err = some .errSyntax then (0, err)
    else
      let cutoff : Nat := 2 ^ 63
      if neg = false ∧ un ≥ cutoff then ((cutoff : Int) - 1, some .errRange)
      else if neg = true ∧ un > cutoff then (-(cutoff : Int), some .errRange)
      else (if neg then -(un : Int) else (un : Int), none)

/-- The loop `for s.accept(digits) {}` of `fmt.(*ss).scanNumber`: the longest
run of accepted characters and what follows it. -/
def acceptWhile (ok : List Char) : List Char → List Char × List Char
  | [] => ([], [])
  | c :: cs =>
    if c ∈ ok then
      let (tok, rest) := acceptWhile ok cs
      (c :: tok, rest)
    else ([], c :: cs)

def decimalDigits : List Char := "0123456789_".data
def octalDigits : List Char := "01234567_".data
def binaryDigits : List Char := "01_".data
def hexadecimalDigits : List Char := "0123456789aAbBcCdDeEfF_".data

/-- Go `fmt.(*ss).scanBasePrefix`, given the token buffer so far and the
input: the digit set, whether a digit was already read, the buffer and the
remaining input. -/
def scanBasePrefix (buf : List Char) (input : List Char) :
    List Char × Bool × List Char × List Char :=
  match input with
  | '0' :: rest =>
    match rest with
    | c :: rest1 =>
      if c = 'b' ∨ c = 'B' then (binaryDigits, true, buf ++ ['0', c], rest1)
      else if c = 'o' ∨ c = 'O' then (octalDigits, true, buf ++ ['0', c], rest1)
      else if c = 'x' ∨ c = 'X' then (hexadecimalDigits, true, buf ++ ['0', c], rest1)
      else (octalDigits, true, buf ++ ['0'], rest)
    | [] => (octalDigits, true, buf ++ ['0'], rest)
  | _ => (decimalDigits, false, buf, input)

/-- Go `fmt.Sscan(str, &id)` with `id` an `int64`: the value stored in `id`
and the error. White space (newlines too) is skipped, a sign and a base
prefix are accepted, the digits are read, and whatever follows the number is
left unread. -/
def sscanInt64 (str : String) : Int × Option String :=
  let input := str.data.dropWhile isSpace
  match input with
  | [] => (0, some "unexpected EOF")
  | c :: cs =>
    let (buf, input) : List Char × List Char :=
      if c = '+' ∨ c = '-' then ([c], cs) else ([], input)
    let (digits, haveDigits, buf, input) := scanBasePrefix buf input
    let (more, _) := acceptWhile digits input
    if haveDigits = false ∧ input = [] then (0, some "unexpected EOF")
    else if haveDigits = false ∧ more = [] then (0, some "expected integer")
    else
      match parseInt (buf ++ more) 0 with
      | (_, some .errSyntax) => (0, some "invalid syntax")
      | (_, some .errRange) => (0, some "value out of range")
      | (i, none) => (i, none)

/-- A JSON value as written by `encoding/json`; `timestamp t` stands for the
RFC 3339 string of the `time.Time` value `t`. -/
inductive Json where
  | null
  | bool (b : Bool)
  | num (n : Int)
  | str (s : String)
  | timestamp (t : Nat)
  | arr (items : List Json)
  | obj (fields : List (String × Json))

/-- What a handler wrote to the `http.ResponseWriter` after the header. -/
inductive Body where
  | empty
  | json (j : Json)
  | text (s : String)

/-- An HTTP response: status code, `Content-Type` header and body. A handler
that never calls `WriteHeader` answers 200. -/
structure Response where
  status : Nat
  contentType : String
  body : Body

/-- An inbound request: `r.Method`, `r.URL.Path`, the decoded query pairs of
`r.URL.Query()` and the raw body. -/
structure Request where
  method : String
  path : String
  query : List (String × String)
  body : String

/-- Go `url.Values.Get`: the first value of the key, or the empty string. -/
def queryGet (q : List (String × String)) (key : String) : String :=
  match q.find? (fun kv => kv.1 == key) with
  | some kv => kv.2
  | none => ""

/-- The value `map[string]string{"error": msg}` encoded as JSON. -/
def errorJson (msg : String) : Json :=
  .obj [("error", .str msg)]

/-- The pattern `w.WriteHeader(status)` followed by the JSON encoding of an
error map, under the `Content-Type` set at the top of the handler. -/
def errorResp (status : Nat) (msg : String) : Response :=
  ⟨status, "application/json", .json (errorJson msg)⟩

/-- A JSON body written under the handler's `Content-Type`. -/
def jsonResp (status : Nat) (j : Json) : Response :=
  ⟨status, "application/json", .json j⟩

/-- The pattern `w.WriteHeader(http.StatusNoContent)` with nothing written. -/
def noContent : Response :=
  ⟨204, "application/json", .empty⟩

/-- Go `http.NotFound`: `http.Error(w, "404 page not found", 404)`, which
replaces the `Content-Type` header and writes the text and a newline. -/
def httpNotFound : Response :=
  ⟨404, "text/plain; charset=utf-8", .text "404 page not found\n"⟩

/-- The body is a JSON object with exactly one field, named `error`, holding a
string. -/
def Body.isErrorObject : Body → Bool
  | .json (.obj [(k, .str _)]) => k == "error"
  | _ => false

/-- Value of the first field named `key` of a JSON object; `none` for a value
that is not an object or has no such field. -/
def Json.field (j : Json) (key : String) : Option Json :=
  match j with
  | .obj fields => (fields.find? (fun kv => kv.1 == key)).map (fun kv => kv.2)
  | _ => none

/-- A decimal digit `0`-`9`. -/
def isDecimalDigit (c : Char) : Bool :=
  48 ≤ c.toNat && c.toNat ≤ 57

/-- The number written by a run of decimal digits, continuing from `n`. -/
def decimalValue : List Char → Nat → Nat
  | [], n => n
  | c :: cs, n => decimalValue cs (n * 10 + (c.toNat - 48))

/-- Specification side of the `parseID` comparison, written from the
specification's words and not from the code: the id segment read as the base-10
representation of a signed 64-bit integer, that is an optional sign, then one
or more decimal digits, with a value from -2^63 to 2^63 - 1. -/
def decimalInt64 (s : String) : Option Int :=
  match s.data with
  | [] => none
  | c :: cs =>
    let digits := if c = '+' ∨ c = '-' then cs else c :: cs
    if digits = [] ∨ digits.all isDecimalDigit = false then none
    else
      let v : Int := if c = '-' then -(decimalValue digits 0 : Int) else (decimalValue digits 0 : Int)
      if -(2 : Int) ^ 63 ≤ v ∧ v < (2 : Int) ^ 63 then some v else none

end GoLib

namespace TodoService
open GoLib

/-- Todo-service `parseID` (strconv.ParseInt, base 10, 64 bits). -/
def parseID (path : String) (pfx : String) : Int × Bool :=
  if !hasPrefix path pfx then (0, false)
  else
    let idStr := trimPrefix path pfx
    if idStr = "" then (0, false)
    else
      match parseInt idStr.data 10 with
      | (_, some _) => (0, false)
      | (id, none) => (id, true)

/-- Todo-service `User`. -/
structure User where
  id : Int
  email : String
  name : String
  deriving DecidableEq, Repr

/-- Todo-service `Todo`; a nil pointer is `none`. -/
structure Todo where
  id : Int
  title : String
  completed : Bool
  userID : Option Int
  user : Option User
  createdAt : Nat
  updatedAt : Nat
  deriving DecidableEq, Repr

/-- A row of table `todos`. -/
structure Row where
  id : Int
  title : String
  completed : Bool
  userID : Option Int
  createdAt : Nat
  updatedAt : Nat
  deriving DecidableEq, Repr

/-- The table `todos` and its AUTO_INCREMENT counter. The column limit
VARCHAR(255) is not modelled: a statement the engine rejects is a storage
fault of the environment. -/
structure DB where
  rows : List Row
  nextID : Int
  deriving DecidableEq, Repr

/-- The table right after `migrate`. -/
def DB.init : DB := ⟨[], 1⟩

/-- Outcome of the GET that `fetchUserByID` sends: `client.Do` fails, or a
response with its status code and body text arrives. -/
inductive HttpOutcome where
  | transportError (msg : String)
  | response (status : Nat) (body : String)
  deriving DecidableEq, Repr

/-- Decoded body of a create request (`title` is the zero value when absent). -/
structure CreatePayload where
  title : String
  userID : Option Int
  deriving DecidableEq, Repr

/-- Decoded body of an update request; an absent or null field is `none`. -/
structure UpdatePayload where
  title : Option String
  completed : Option Bool
  userID : Option Int
  deriving DecidableEq, Repr

/-- Everything a request handler obtains from outside the process.
* `net k id`: outcome of the GET to `/api/users/{id}` issued for the `k`-th
  row handled by the request (`0` for create and update);
* `decodeUser`: `json.Decoder.Decode` into a `User`;
* `decodeCreate`, `decodeUpdate`: `json.Decoder.Decode` of the request body
  into the payload struct, `none` when it returns an error;
* `dbFault k`: the error of the `k`-th storage interaction of the request,
  `none` when it executes;
* `now`: the value of CURRENT_TIMESTAMP. -/
structure Env where
  net : Nat → Int → HttpOutcome
  decodeUser : String → Except String User
  decodeCreate : String → Option CreatePayload
  decodeUpdate : String → Option UpdatePayload
  dbFault : Nat → Option String
  now : Nat

/-- The query `SELECT ... FROM todos ORDER BY id DESC`. -/
def selectAllDesc (db : DB) : List Row :=
  db.rows.insertionSort (fun a b => a.id ≥ b.id)

/-- The query `SELECT ... FROM todos WHERE id = ?` (at most one row is read). -/
def selectByID (db : DB) (id : Int) : Option Row :=
  db.rows.find? (fun r => r.id == id)

/-- The statement `INSERT INTO todos (title, completed, user_id) VALUES (?, false, ?)`;
returns the table and `LastInsertId`. -/
def insertTodo (db : DB) (title : String) (userID : Option Int) (now : Nat) : DB × Int :=
  (⟨db.rows ++ [⟨db.nextID, title, false, userID, now, now⟩], db.nextID + 1⟩, db.nextID)

/-- The statement `UPDATE todos SET title = ?, completed = ?, user_id = ? WHERE id = ?`;
`updated_at` moves only when a column changes (ON UPDATE CURRENT_TIMESTAMP). -/
def updateRow (db : DB) (id : Int) (title : String) (completed : Bool)
    (userID : Option Int) (now : Nat) : DB :=
  ⟨db.rows.map (fun r =>
      if r.id = id then
        ⟨r.id, title, completed, userID, r.createdAt,
          if r.title = title ∧ r.completed = completed ∧ r.userID = userID
          then r.updatedAt else now⟩
      else r),
    db.nextID⟩

/-- The statement `DELETE FROM todos WHERE id = ?`; returns the table and
`RowsAffected`. -/
def deleteRow (db : DB) (id : Int) : DB × Nat :=
  (⟨db.rows.filter (fun r => r.id != id), db.nextID⟩,
    (db.rows.filter (fun r => r.id == id)).length)

/-- What `rows.Scan` followed by `if userID.Valid` builds from a row. -/
def scanTodo (r : Row) : Todo :=
  ⟨r.id, r.title, r.completed, r.userID, none, r.createdAt, r.updatedAt⟩

def encodeUser (u : User) : Json :=
  .obj [("id", .num u.id), ("email", .str u.email), ("name", .str u.name)]

/-- JSON encoding of a `Todo`: `user_id` and `user` carry `omitempty`. -/
def encodeTodo (t : Todo) : Json :=
  .obj ([("id", .num t.id), ("title", .str t.title), ("completed", .bool t.completed)]
    ++ (match t.userID with
        | some u => [("user_id", .num u)]
        | none => [])
    ++ (match t.user with
        | some u => [("user", encodeUser u)]
        | none => [])
    ++ [("created_at", .timestamp t.createdAt), ("updated_at", .timestamp t.updatedAt)])

/-- JSON encoding of a `[]Todo`: a nil slice is written as `null`. -/
def encodeTodos : Option (List Todo) → Json
  | none => .null
  | some ts => .arr (ts.map encodeTodo)

/-- Go `append` on a slice that may be nil. -/
def appendTodo (todos : Option (List Todo)) (t : Todo) : Option (List Todo) :=
  match todos with
  | none => some [t]
  | some ts => some (ts ++ [t])

/-- The body of `fetchUserByID` after `client.Do`: the returned pointer and
error. -/
def fetchUserFrom (decodeUser : String → Except String User) :
    HttpOutcome → Option User × Option String
  | .transportError msg => (none, some msg)
  | .response status body =>
    if status = 404 then (none, some "user not found")
    else if status ≠ 200 then (none, some ("users-service error: " ++ trimSpace body))
    else
      match decodeUser body with
      | .error e => (none, some e)
      | .ok user => (some user, none)

/-- Todo-service `fetchUserByID`, for the `k`-th row of the request. -/
def fetchUserByID (env : Env) (k : Nat) (id : Int) : Option User × Option String :=
  fetchUserFrom env.decodeUser (env.net k id)

/-- The body of `validateUserExists` after its call of `fetchUserByID`. -/
def validateUserFrom (decodeUser : String → Except String User) (o : HttpOutcome) :
    Option String :=
  match fetchUserFrom decodeUser o with
  | (_, some err) => some err
  | (none, none) => some "user not found"
  | (some _, none) => none

/-- Todo-service `validateUserExists`. -/
def validateUserExists (env : Env) (userID : Int) : Option String :=
  validateUserFrom env.decodeUser (env.net 0 userID)

/-- The body of the loop of `listTodos` between `rows.Scan` and `append`: the
`Todo` built for row `r`, the `k`-th row of the result set. -/
def enrich (env : Env) (includeUser : Bool) (k : Nat) (r : Row) : Todo :=
  match includeUser, (scanTodo r).userID with
  | true, some uid =>
    match fetchUserByID env k uid with
    | (u, none) => { scanTodo r with user := u }
    | (_, some _) => scanTodo r
  | _, _ => scanTodo r

/-- The loop `for rows.Next()` of `listTodos` over the rows still to read;
`k` is the index of the next row and `todos` the slice built so far. -/
def listLoop (env : Env) (includeUser : Bool) :
    List Row → Nat → Option (List Todo) → Except String (Option (List Todo))
  | [], _, todos => .ok todos
  | r :: rest, k, todos =>
    match env.dbFault (k + 1) with
    | some e => .error e
    | none => listLoop env includeUser rest (k + 1) (appendTodo todos (enrich env includeUser k r))

/-- Todo-service `listTodos`. -/
def listTodos (env : Env) (db : DB) (r : Request) : Response :=
  let includeUser := queryGet r.query "include_user" == "true"
  match env.dbFault 0 with
  | some e => errorResp 500 e
  | none =>
    match listLoop env includeUser (selectAllDesc db) 0 none with
    | .error e => errorResp 500 e
    | .ok todos => jsonResp 200 (encodeTodos todos)

/-- Todo-service `createTodo`; `decoded` is the outcome of decoding the body. -/
def createTodo (env : Env) (db : DB) (decoded : Option CreatePayload) : Response × DB :=
  match decoded with
  | none => (errorResp 400 "invalid json", db)
  | some payload =>
    if trimSpace payload.title = "" then (errorResp 400 "title is required", db)
    else
      match payload.userID.bind (validateUserExists env) with
      | some err => (errorResp 400 err, db)
      | none =>
        match env.dbFault 0 with
        | some e => (errorResp 500 e, db)
        | none =>
          let (db1, id) := insertTodo db payload.title payload.userID env.now
          match env.dbFault 1, selectByID db1 id with
          | some e, _ => (errorResp 500 e, db1)
          | none, none => (errorResp 500 "sql: no rows in result set", db1)
          | none, some row => (jsonResp 201 (encodeTodo (scanTodo row)), db1)

/-- Todo-service `updateTodo`; `decoded` is the outcome of decoding the body. -/
def updateTodo (env : Env) (db : DB) (decoded : Option UpdatePayload) (id : Int) :
    Response × DB :=
  match decoded with
  | none => (errorResp 400 "invalid json", db)
  | some payload =>
    match env.dbFault 0, selectByID db id with
    | some e, _ => (errorResp 500 e, db)
    | none, none => (errorResp 404 "not found", db)
    | none, some row =>
      let current := scanTodo row
      let current : Todo :=
        match payload.title with
        | some t => { current with title := t }
        | none => current
      let current : Todo :=
        match payload.completed with
        | some c => { current with completed := c }
        | none => current
      match payload.userID.bind (validateUserExists env) with
      | some err => (errorResp 400 err, db)
      | none =>
        let current : Todo :=
          match payload.userID with
          | some uid => { current with userID := some uid }
          | none => current
        match env.dbFault 1 with
        | some e => (errorResp 500 e, db)
        | none =>
          let db1 := updateRow db id current.title current.completed current.userID env.now
          match env.dbFault 2, selectByID db1 id with
          | some e, _ => (errorResp 500 e, db1)
          | none, none => (errorResp 500 "sql: no rows in result set", db1)
          | none, some row1 => (jsonResp 200 (encodeTodo (scanTodo row1)), db1)

/-- Todo-service `deleteTodo`. -/
def deleteTodo (env : Env) (db : DB) (id : Int) : Response × DB :=
  match env.dbFault 0 with
  | some e => (errorResp 500 e, db)
  | none =>
    let (db1, n) := deleteRow db id
    if n = 0 then (errorResp 404 "not found", db1)
    else (noContent, db1)

/-- Todo-service `handleTodos`. -/
def handleTodos (env : Env) (db : DB) (r : Request) : Response × DB :=
  if r.method = "OPTIONS" then (noContent, db)
  else if r.method = "GET" then
    if r.path = "/api/todos" then (listTodos env db r, db)
    else (httpNotFound, db)
  else if r.method = "POST" then
    if r.path = "/api/todos" then createTodo env db (env.decodeCreate r.body)
    else (httpNotFound, db)
  else if r.method = "PUT" then
    match parseID r.path "/api/todos/" with
    | (_, false) => (httpNotFound, db)
    | (id, true) => updateTodo env db (env.decodeUpdate r.body) id
  else if r.method = "DELETE" then
    match parseID r.path "/api/todos/" with
    | (_, false) => (httpNotFound, db)
    | (id, true) => deleteTodo env db id
  else (errorResp 405 "method not allowed", db)

end TodoService

namespace UsersService
open GoLib

/-- Users-service `parseID` (fmt.Sscan into an int64). -/
def parseID (path : String) (pfx : String) : Int × Bool :=
  if !hasPrefix path pfx then (0, false)
  else
    let idStr := trimPrefix path pfx
    if idStr = "" then (0, false)
    else
      match sscanInt64 idStr with
      | (_, some _) => (0, false)
      | (id, none) => (id, true)

/-- Users-service `User`, which is also a row of table `users`. -/
structure User where
  id : Int
  email : String
  name : String
  createdAt : Nat
  deriving DecidableEq, Repr

/-- The table `users` and its AUTO_INCREMENT counter. -/
structure DB where
  rows : List User
  nextID : Int
  deriving DecidableEq, Repr

/-- Decoded body of a create request (zero values for absent fields). -/
structure CreatePayload where
  email : String
  name : String
  deriving DecidableEq, Repr

/-- Everything a users-service handler obtains from outside the process:
the decoding of the request body (`none` on error), the error of the `k`-th
storage interaction of the request (among them a violation of the UNIQUE
constraint on `email`), and CURRENT_TIMESTAMP. -/
structure Env where
  decodeCreate : String → Option CreatePayload
  dbFault : Nat → Option String
  now : Nat

/-- The query `SELECT ... FROM users ORDER BY id DESC`. -/
def selectAllDesc (db : DB) : List User :=
  db.rows.insertionSort (fun a b => a.id ≥ b.id)

/-- The query `SELECT ... FROM users WHERE id = ?`. -/
def selectByID (db : DB) (id : Int) : Option User :=
  db.rows.find? (fun r => r.id == id)

/-- The statement `INSERT INTO users (email, name) VALUES (?, ?)`; returns the
table and `LastInsertId`. -/
def insertUser (db : DB) (email name : String) (now : Nat) : DB × Int :=
  (⟨db.rows ++ [⟨db.nextID, email, name, now⟩], db.nextID + 1⟩, db.nextID)

def encodeUser (u : User) : Json :=
  .obj [("id", .num u.id), ("email", .str u.email), ("name", .str u.name),
    ("created_at", .timestamp u.createdAt)]

/-- JSON encoding of a `[]User`: a nil slice is written as `null`. -/
def encodeUsers : Option (List User) → Json
  | none => .null
  | some us => .arr (us.map encodeUser)

/-- The loop `for rows.Next()` of `listUsers`. -/
def listLoop (env : Env) :
    List User → Nat → Option (List User) → Except String (Option (List User))
  | [], _, users => .ok users
  | u :: rest, k, users =>
    match env.dbFault (k + 1) with
    | some e => .error e
    | none =>
      listLoop env rest (k + 1)
        (match users with
         | none => some [u]
         | some us => some (us ++ [u]))

/-- Users-service `listUsers`. -/
def listUsers (env : Env) (db : DB) : Response :=
  match env.dbFault 0 with
  | some e => errorResp 500 e
  | none =>
    match listLoop env (selectAllDesc db) 0 none with
    | .error e => errorResp 500 e
    | .ok users => jsonResp 200 (encodeUsers users)

/-- Users-service `createUser`. -/
def createUser (env : Env) (db : DB) (decoded : Option CreatePayload) : Response × DB :=
  match decoded with
  | none => (errorResp 400 "invalid json", db)
  | some payload =>
    if trimSpace payload.email = "" ∨ trimSpace payload.name = "" then
      (errorResp 400 "email and name are required", db)
    else
      match env.dbFault 0 with
      | some e => (errorResp 400 e, db)
      | none =>
        let (db1, id) := insertUser db payload.email payload.name env.now
        match env.dbFault 1, selectByID db1 id with
        | some e, _ => (errorResp 500 e, db1)
        | none, none => (errorResp 500 "sql: no rows in result set", db1)
        | none, some u => (jsonResp 201 (encodeUser u), db1)

/-- Users-service `handleUsers`. -/
def handleUsers (env : Env) (db : DB) (r : Request) : Response × DB :=
  if r.method = "OPTIONS" then (noContent, db)
  else if r.method = "GET" then (listUsers env db, db)
  else if r.method = "POST" then createUser env db (env.decodeCreate r.body)
  else (errorResp 405 "method not allowed", db)

/-- Users-service `handleUserByID`. -/
def handleUserByID (env : Env) (db : DB) (r : Request) : Response :=
  if r.method = "OPTIONS" then noContent
  else if r.method ≠ "GET" then errorResp 405 "method not allowed"
  else
    match parseID r.path "/api/users/" with
    | (_, false) => httpNotFound
    | (id, true) =>
      match env.dbFault 0, selectByID db id with
      | some e, _ => errorResp 500 e
      | none, none => errorResp 404 "not found"
      | none, some u => jsonResp 200 (encodeUser u)

end UsersService

namespace TodoService
open GoLib

/-- An environment whose storage never fails, whose decoders decode nothing
and whose user lookups are all answered by the given function. -/
def quietEnv (net : Nat → Int → HttpOutcome) : Env :=
  ⟨net, fun _ => .error "unexpected end of JSON input", fun _ => none, fun _ => none,
    fun _ => none, 7⟩

/-- A user service that knows no user. -/
def netNotFound : Nat → Int → HttpOutcome :=
  fun _ _ => .response 404 "\x7b\"error\":\"not found\"\x7d\n"

/-- A user service that fails with status 500. -/
def netBroken : Nat → Int → HttpOutcome :=
  fun _ _ => .response 500 " boom\n"

/-- The todos appended by the loop of `listTodos` for the rows from index `k` on. -/
def enrichFrom (env : Env) (includeUser : Bool) : Nat → List Row → List Todo
  | _, [] => []
  | k, r :: rest => enrich env includeUser k r :: enrichFrom env includeUser (k + 1) rest

/-- A todo without its embedded user. -/
def Todo.core (t : Todo) : Todo :=
  { t with user := none }

/-- A table with two todos. -/
def db2 : DB :=
  ⟨[⟨1, "buy milk", false, some 4, 3, 3⟩, ⟨2, "walk", true, none, 5, 5⟩], 3⟩

/-- A user service that knows user 4 only. -/
def netOnly4 : Nat → Int → HttpOutcome :=
  fun _ id => if id = 4 then .response 200 "u4" else .response 404 ""

/-- An environment over `netOnly4` whose decoder reads the body `u4`. -/
def envOnly4 : Env :=
  ⟨netOnly4, fun b => if b = "u4" then .ok ⟨4, "a@x.com", "A"⟩ else .error "invalid",
    fun _ => none, fun _ => none, fun _ => none, 7⟩

/-- An environment over `netOnly4` whose storage refuses the first statement
of every request. -/
def envStorageDown : Env :=
  ⟨netOnly4, fun b => if b = "u4" then .ok ⟨4, "a@x.com", "A"⟩ else .error "invalid",
    fun _ => none, fun _ => none,
    fun k => if k = 0 then some "invalid connection" else none, 7⟩

/-- The tables reachable from the empty table through create, update and
delete requests, under any environment. -/
inductive Reachable : DB → Prop where
  | init : Reachable DB.init
  | create (env : Env) (db : DB) (decoded : Option CreatePayload) :
      Reachable db → Reachable (createTodo env db decoded).2
  | update (env : Env) (db : DB) (decoded : Option UpdatePayload) (id : Int) :
      Reachable db → Reachable (updateTodo env db decoded id).2
  | delete (env : Env) (db : DB) (id : Int) :
      Reachable db → Reachable (deleteTodo env db id).2

/-- Every stored title is non-empty after trimming white space. -/
def TitlesOk (db : DB) : Prop :=
  ∀ r ∈ db.rows, trimSpace r.title ≠ ""

instance (db : DB) : Decidable (TitlesOk db) :=
  inferInstanceAs (Decidable (∀ r ∈ db.rows, trimSpace r.title ≠ ""))

instance : IsTotal Row (fun a b => a.id ≥ b.id) := ⟨fun a b => le_total b.id a.id⟩

instance : IsTrans Row (fun a b => a.id ≥ b.id) := ⟨fun _ _ _ h1 h2 => le_trans h2 h1⟩

end TodoService

namespace UsersService
open GoLib

/-- A users-service environment whose storage never fails. -/
def quietEnv : Env :=
  ⟨fun _ => none, fun _ => none, 7⟩

/-- A users table with one user. -/
def db1 : DB :=
  ⟨[⟨1, "a@x.com", "A", 2⟩], 2⟩

end UsersService

namespace GoLib

theorem maxUint64_eq : maxUint64 = 18446744073709551615 := by
  unfold maxUint64; norm_num

theorem decimalValue_ge (cs : List Char) (n : Nat) : n ≤ decimalValue cs n := by
  induction cs generalizing n with
  | nil => exact le_refl n
  | cons c cs ih =>
    unfold decimalValue
    exact le_trans (by omega) (ih _)

theorem digitVal_digit (c : Char) (h : isDecimalDigit c = true) :
    digitVal c = some (c.toNat - 48) ∧ c.toNat - 48 < 10 := by
  simp only [isDecimalDigit, Bool.and_eq_true, decide_eq_true_eq] at h
  unfold digitVal
  simp only [h.1, h.2, and_self, if_true]
  exact ⟨trivial, by omega⟩

theorem digitVal_nondigit (c : Char) (h : isDecimalDigit c = false) :
    digitVal c = none ∨ ∃ d, digitVal c = some d ∧ 10 ≤ d := by
  have h' : ¬ (48 ≤ c.toNat ∧ c.toNat ≤ 57) := by
    intro hh
    simp [isDecimalDigit, hh.1, hh.2] at h
  unfold digitVal
  simp only [h', if_false]
  by_cases h1 : 97 ≤ c.toNat ∧ c.toNat ≤ 122
  · simp only [h1, and_self, if_true]
    exact Or.inr ⟨_, rfl, by omega⟩
  · simp only [h1, if_false]
    by_cases h2 : 65 ≤ c.toNat ∧ c.toNat ≤ 90
    · simp only [h2, and_self, if_true]
      exact Or.inr ⟨_, rfl, by omega⟩
    · simp only [h2, if_false]
      exact Or.inl trivial

theorem parseUintLoop_digits (cs : List Char) (n : Nat) (us : Bool)
    (h : cs.all isDecimalDigit = true) (hn : n ≤ maxUint64) :
    parseUintLoop 10 false cs n us =
      if decimalValue cs n ≤ maxUint64 then .ok (decimalValue cs n, us)
      else .error .errRange := by
  induction cs generalizing n with
  | nil => simp [parseUintLoop, decimalValue, hn]
  | cons c cs ih =>
    simp only [List.all_cons, Bool.and_eq_true] at h
    obtain ⟨hd, hlt⟩ := digitVal_digit c h.1
    have hge := decimalValue_ge cs (n * 10 + (c.toNat - 48))
    unfold parseUintLoop decimalValue
    simp only [hd, Bool.false_eq_true, and_false, if_false]
    have hlt' : ¬ (c.toNat - 48 ≥ 10) := by omega
    simp only [hlt', if_false]
    rw [maxUint64_eq] at *
    by_cases h1 : n ≥ 18446744073709551615 / 10 + 1
    · have : ¬ decimalValue cs (n * 10 + (c.toNat - 48)) ≤ 18446744073709551615 := by omega
      simp only [h1, this, if_true, if_false]
    · by_cases h2 : n * 10 + (c.toNat - 48) > 18446744073709551615
      · have : ¬ decimalValue cs (n * 10 + (c.toNat - 48)) ≤ 18446744073709551615 := by omega
        simp only [h1, h2, this, if_true, if_false]
      · simp only [h1, h2, if_false]
        exact ih _ h.2 (by omega)

theorem parseUintLoop_nondigits (cs : List Char) (n : Nat) (us : Bool)
    (h : cs.all isDecimalDigit = false) :
    ∃ e, parseUintLoop 10 false cs n us = .error e := by
  induction cs generalizing n with
  | nil => simp at h
  | cons c cs ih =>
    unfold parseUintLoop
    simp only [Bool.false_eq_true, and_false, if_false]
    by_cases hc : isDecimalDigit c = true
    · have hrest : cs.all isDecimalDigit = false := by
        simpa [List.all_cons, hc] using h
      obtain ⟨hd, hlt⟩ := digitVal_digit c hc
      have hlt' : ¬ (c.toNat - 48 ≥ 10) := by omega
      simp only [hd, hlt', if_false]
      split
      · exact ⟨_, rfl⟩
      · split
        · exact ⟨_, rfl⟩
        · exact ih _ hrest
    · have hc' : isDecimalDigit c = false := by simpa using hc
      rcases digitVal_nondigit c hc' with hnone | ⟨d, hd, hge⟩
      · simp only [hnone]
        exact ⟨_, rfl⟩
      · simp only [hd, hge, ge_iff_le, if_true]
        exact ⟨_, rfl⟩
theorem parseUint_ten_ok (cs : List Char) (hne : cs ≠ [])
    (h : cs.all isDecimalDigit = true) (hv : decimalValue cs 0 ≤ maxUint64) :
    parseUint cs 10 = (decimalValue cs 0, none) := by
  unfold parseUint
  have h10 : ((10 : Nat) == 0) = false := by decide
  simp only [hne, if_false, h10, Bool.false_eq_true]
  rw [parseUintLoop_digits cs 0 false h (Nat.zero_le _)]
  simp [hv]

theorem parseUint_ten_err (cs : List Char)
    (h : cs = [] ∨ cs.all isDecimalDigit = false ∨ ¬ decimalValue cs 0 ≤ maxUint64) :
    parseUint cs 10 = (0, some .errSyntax) ∨ parseUint cs 10 = (maxUint64, some .errRange) := by
  unfold parseUint
  by_cases hne : cs = []
  · simp [hne]
  · have h10 : ((10 : Nat) == 0) = false := by decide
    simp only [hne, if_false, h10, Bool.false_eq_true]
    by_cases hall : cs.all isDecimalDigit = true
    · have hv : ¬ decimalValue cs 0 ≤ maxUint64 := by
        rcases h with h | h | h
        · exact absurd h hne
        · rw [hall] at h; exact absurd h (by decide)
        · exact h
      rw [parseUintLoop_digits cs 0 false hall (Nat.zero_le _)]
      simp [hv]
    · have hall' : cs.all isDecimalDigit = false := by simpa using hall
      obtain ⟨e, he⟩ := parseUintLoop_nondigits cs 0 false hall'
      rw [he]
      cases e <;> simp

/-- The outcome of `strconv.ParseInt(s, 10, 64)` as `parseID` uses it agrees
with the reading of `s` as a base-10 signed 64-bit integer. -/
theorem parseInt_ten_spec (chars : List Char) :
    (match parseInt chars 10 with
      | (_, some _) => ((0 : Int), false)
      | (id, none) => (id, true)) =
    (match decimalInt64 (String.mk chars) with
      | some v => (v, true)
      | none => (0, false)) := by
  cases chars with
  | nil => rfl
  | cons c cs =>
    unfold parseInt decimalInt64
    simp only
    generalize hd : (if c = '+' ∨ c = '-' then cs else c :: cs) = digits
    by_cases hgood : digits ≠ [] ∧ digits.all isDecimalDigit = true ∧
        decimalValue digits 0 ≤ maxUint64
    · obtain ⟨hne, hall, hv⟩ := hgood
      rw [parseUint_ten_ok digits hne hall hv]
      have hcond : ¬ (digits = [] ∨ digits.all isDecimalDigit = false) := by
        simp [hne, hall]
      simp only [hcond, if_false]
      rw [maxUint64_eq] at hv
      generalize decimalValue digits 0 = v at hv ⊢
      by_cases hneg : c = '-'
      · subst hneg
        simp only [beq_self_eq_true, if_true]
        split_ifs with h1 h2 h3 h4 h5 h6
        all_goals first
          | rfl
          | (exfalso; simp only [Bool.true_eq_false, false_and, true_and, ge_iff_le, gt_iff_lt,
              not_and, not_lt, not_le] at * <;> omega)
      · have hb : (c == '-') = false := by simpa using hneg
        simp only [hb, hneg, if_false]
        split_ifs with h1 h2 h3 h4 h5 h6
        all_goals first
          | rfl
          | (exfalso; simp only [Bool.false_eq_true, false_and, true_and, ge_iff_le, gt_iff_lt,
              not_and, not_lt, not_le] at * <;> omega)
    · have hbad : digits = [] ∨ digits.all isDecimalDigit = false ∨
          ¬ decimalValue digits 0 ≤ maxUint64 := by
        by_contra hcon
        push_neg at hcon
        exact hgood ⟨hcon.1, by simpa using hcon.2.1, hcon.2.2⟩
      have hspec : (if digits = [] ∨ digits.all isDecimalDigit = false then (none : Option Int)
          else
            if -(2 : Int) ^ 63 ≤ (if c = '-' then -(decimalValue digits 0 : Int)
                else (decimalValue digits 0 : Int)) ∧
              (if c = '-' then -(decimalValue digits 0 : Int)
                else (decimalValue digits 0 : Int)) < (2 : Int) ^ 63
            then some (if c = '-' then -(decimalValue digits 0 : Int)
                else (decimalValue digits 0 : Int))
            else none) = none := by
        by_cases h1 : digits = [] ∨ digits.all isDecimalDigit = false
        · simp only [h1, if_true]
        · simp only [h1, if_false]
          have hv : ¬ decimalValue digits 0 ≤ maxUint64 := by
            rcases hbad with h | h | h
            · exact absurd (Or.inl h) h1
            · exact absurd (Or.inr h) h1
            · exact h
          rw [maxUint64_eq] at hv
          by_cases hneg : c = '-'
          · simp only [hneg, if_true]
            rw [if_neg]
            push_cast
            omega
          · simp only [hneg, if_false]
            rw [if_neg]
            push_cast
            omega
      rw [hspec]
      rcases parseUint_ten_err digits hbad with he | he
      · rw [he]; simp
      · rw [he]
        by_cases hneg : c = '-'
        · subst hneg
          simp [maxUint64]
        · have hb : (c == '-') = false := by simpa using hneg
          simp [hb, maxUint64]

end GoLib

namespace TodoService
open GoLib

theorem hasPrefix_append (pfx s : String) : hasPrefix (pfx ++ s) pfx = true := by
  unfold hasPrefix
  rw [String.data_append, List.isPrefixOf_iff_prefix]
  exact List.prefix_append _ _

theorem trimPrefix_append (pfx s : String) : trimPrefix (pfx ++ s) pfx = s := by
  unfold trimPrefix
  rw [hasPrefix_append, if_pos rfl, String.data_append, List.drop_left]

/-- The todo-service `parseID` accepts exactly the id segments that are the
base-10 representation of a signed 64-bit integer, and returns that integer. -/
theorem parseID_decimal (pfx s : String) :
    parseID (pfx ++ s) pfx =
      match decimalInt64 s with
      | some v => (v, true)
      | none => (0, false) := by
  unfold parseID
  rw [hasPrefix_append, trimPrefix_append]
  simp only [Bool.not_true, Bool.false_eq_true, if_false]
  by_cases hs : s = ""
  · subst hs
    rfl
  · simp only [hs, if_false]
    exact parseInt_ten_spec s.data

theorem fetchUserFrom_never_nil_nil (dec : String → Except String User) (o : HttpOutcome) :
    fetchUserFrom dec o ≠ (none, none) := by
  cases o with
  | transportError msg => simp [fetchUserFrom]
  | response st body =>
    simp only [fetchUserFrom]
    split
    · simp
    · split
      · simp
      · split <;> simp

theorem validateUserExists_none_iff (env : Env) (id : Int) :
    validateUserExists env id = none ↔
      ∃ body u, env.net 0 id = .response 200 body ∧ env.decodeUser body = .ok u := by
  unfold validateUserExists validateUserFrom fetchUserFrom
  cases hn : env.net 0 id with
  | transportError msg => simp
  | response st body =>
    by_cases h4 : st = 404
    · subst h4; simp
    · by_cases h2 : st = 200
      · subst h2
        cases hd : env.decodeUser body with
        | error e => simp [hd]
        | ok u => simp [hd]
      · simp [h4, h2]

/-- C6: `fetchUserByID` is determined by the outcome of its GET: a transport
failure is returned as that error; status 404 gives the error "user not found";
any status other than 404 and 200 gives "users-service error: " followed by the
(white-space trimmed) body text; status 200 gives the decoded user, or the
decoding error. `validateUserExists` returns no error exactly when the status
is 200 and the body decodes as a user. -/
theorem fetchUserByID_outcome (env : Env) (k : Nat) (id : Int) :
    (∀ msg, env.net k id = .transportError msg →
      fetchUserByID env k id = (none, some msg)) ∧
    (∀ body, env.net k id = .response 404 body →
      fetchUserByID env k id = (none, some "user not found")) ∧
    (∀ st body, st ≠ 404 → st ≠ 200 → env.net k id = .response st body →
      fetchUserByID env k id = (none, some ("users-service error: " ++ trimSpace body))) ∧
    (∀ body u, env.net k id = .response 200 body → env.decodeUser body = .ok u →
      fetchUserByID env k id = (some u, none)) ∧
    (∀ body e, env.net k id = .response 200 body → env.decodeUser body = .error e →
      fetchUserByID env k id = (none, some e)) ∧
    (validateUserExists env id = none ↔
      ∃ body u, env.net 0 id = .response 200 body ∧ env.decodeUser body = .ok u) := by
  refine ⟨?_, ?_, ?_, ?_, ?_, ?_⟩
  · intro msg h
    simp [fetchUserByID, fetchUserFrom, h]
  · intro body h
    simp [fetchUserByID, fetchUserFrom, h]
  · intro st body h4 h2 h
    simp [fetchUserByID, fetchUserFrom, h, h4, h2]
  · intro body u h hd
    simp [fetchUserByID, fetchUserFrom, h, hd]
  · intro body e h hd
    simp [fetchUserByID, fetchUserFrom, h, hd]
  · exact validateUserExists_none_iff env id

theorem fetchUserByID_outcome_witness :
    fetchUserByID (quietEnv netBroken) 0 4 = (none, some "users-service error: boom") ∧
    ¬ validateUserExists (quietEnv netBroken) 4 = none :=
  ⟨by
      have h := (fetchUserByID_outcome (quietEnv netBroken) 0 4).2.2.1 500 " boom\n"
        (by decide) (by decide) rfl
      rw [h]
      decide,
    by
      rw [(fetchUserByID_outcome (quietEnv netBroken) 0 4).2.2.2.2.2]
      rintro ⟨body, u, h, _⟩
      simp [quietEnv, netBroken] at h⟩

theorem deleteRow_count_zero (db : DB) (id : Int) :
    (deleteRow db id).2 = 0 ↔ ∀ r ∈ db.rows, r.id ≠ id := by
  simp [deleteRow, List.filter_eq_nil_iff]

theorem deleteTodo_eq (env : Env) (db : DB) (id : Int) (hf : env.dbFault 0 = none) :
    deleteTodo env db id =
      (if (deleteRow db id).2 = 0 then errorResp 404 "not found" else noContent,
        (deleteRow db id).1) := by
  unfold deleteTodo
  rw [hf]
  by_cases h : (deleteRow db id).2 = 0 <;> simp [h]

/-- C5: when storage does not fail, `deleteTodo` answers 404 exactly when no row
has the id and otherwise 204 with no body; afterwards no row has the id, the
other rows are the same rows in the same order, and deleting the same id again
answers 404 and leaves the table as it was. -/
theorem deleteTodo_contract (env : Env) (db : DB) (id : Int) (hf : env.dbFault 0 = none) :
    ((deleteTodo env db id).1.status = 404 ↔ ∀ r ∈ db.rows, r.id ≠ id) ∧
    ((∃ r ∈ db.rows, r.id = id) →
      (deleteTodo env db id).1.status = 204 ∧ (deleteTodo env db id).1.body = Body.empty) ∧
    (∀ r ∈ (deleteTodo env db id).2.rows, r.id ≠ id) ∧
    (∀ r, r.id ≠ id → (r ∈ (deleteTodo env db id).2.rows ↔ r ∈ db.rows)) ∧
    (deleteTodo env db id).2.rows = db.rows.filter (fun r => r.id != id) ∧
    (deleteTodo env db id).2.nextID = db.nextID ∧
    deleteTodo env (deleteTodo env db id).2 id =
      (errorResp 404 "not found", (deleteTodo env db id).2) := by
  have hz := deleteRow_count_zero db id
  rw [deleteTodo_eq env db id hf]
  refine ⟨?_, ?_, ?_, ?_, ?_, ?_, ?_⟩
  · rw [← hz]
    by_cases h : (deleteRow db id).2 = 0 <;> simp [h, errorResp, noContent]
  · rintro ⟨r, hr, hid⟩
    have h : (deleteRow db id).2 ≠ 0 := fun h0 => (hz.1 h0) r hr hid
    simp [h, noContent]
  · intro r hr
    simp [deleteRow] at hr
    exact hr.2
  · intro r hne
    simp [deleteRow, hne]
  · simp [deleteRow]
  · simp [deleteRow]
  · rw [deleteTodo_eq env _ id hf]
    have h2 : (deleteRow (deleteRow db id).1 id).2 = 0 := by
      rw [deleteRow_count_zero]
      intro r hr
      simp [deleteRow] at hr
      exact hr.2
    have h3 : (deleteRow (deleteRow db id).1 id).1 = (deleteRow db id).1 := by
      simp [deleteRow]
    simp [h2, h3]

theorem deleteTodo_contract_witness :
    (deleteTodo (quietEnv netNotFound) db2 1).1.status = 204 ∧
    (deleteTodo (quietEnv netNotFound) db2 1).2.rows = [⟨2, "walk", true, none, 5, 5⟩] ∧
    (deleteTodo (quietEnv netNotFound) (deleteTodo (quietEnv netNotFound) db2 1).2 1).1.status
      = 404 :=
  ⟨((deleteTodo_contract (quietEnv netNotFound) db2 1 rfl).2.1
      ⟨⟨1, "buy milk", false, some 4, 3, 3⟩, by decide, rfl⟩).1,
    by decide,
    by decide⟩

theorem validateUserExists_of_not_ok (env : Env) (uid : Int)
    (hn : ∀ body, env.net 0 uid ≠ .response 200 body) :
    ∃ err, validateUserExists env uid = some err := by
  cases hv : validateUserExists env uid with
  | some err => exact ⟨err, rfl⟩
  | none =>
    obtain ⟨body, _, hb, _⟩ := (validateUserExists_none_iff env uid).1 hv
    exact absurd hb (hn body)

/-- C3: a create request whose body carries a `user_id` for which the user
service does not answer 200 (it answers 404 or another status, or the transport
fails) is answered with status 400 and a JSON error body, whatever the title
is, and the table is left as it was. -/
theorem createTodo_unknown_user (env : Env) (db : DB) (p : CreatePayload) (uid : Int)
    (hu : p.userID = some uid) (hn : ∀ body, env.net 0 uid ≠ .response 200 body) :
    (createTodo env db (some p)).1.status = 400 ∧
    (createTodo env db (some p)).1.body.isErrorObject = true ∧
    (createTodo env db (some p)).2 = db := by
  obtain ⟨err, herr⟩ := validateUserExists_of_not_ok env uid hn
  unfold createTodo
  by_cases ht : trimSpace p.title = ""
  · simp [ht, errorResp, errorJson, Body.isErrorObject]
  · simp [ht, hu, herr, errorResp, errorJson, Body.isErrorObject]

theorem createTodo_unknown_user_witness :
    ((createTodo (quietEnv netNotFound) db2 (some ⟨"buy milk", some 9⟩)).1.status = 400 ∧
      (createTodo (quietEnv netNotFound) db2 (some ⟨"buy milk", some 9⟩)).1.body.isErrorObject
        = true ∧
      (createTodo (quietEnv netNotFound) db2 (some ⟨"buy milk", some 9⟩)).2 = db2) ∧
    ((createTodo (quietEnv netBroken) db2 (some ⟨"  ", some 9⟩)).1.status = 400 ∧
      (createTodo (quietEnv netBroken) db2 (some ⟨"  ", some 9⟩)).1.body.isErrorObject
        = true ∧
      (createTodo (quietEnv netBroken) db2 (some ⟨"  ", some 9⟩)).2 = db2) :=
  ⟨createTodo_unknown_user (quietEnv netNotFound) db2 ⟨"buy milk", some 9⟩ 9 rfl
      (by intro body h; simp [quietEnv, netNotFound] at h),
    createTodo_unknown_user (quietEnv netBroken) db2 ⟨"  ", some 9⟩ 9 rfl
      (by intro body h; simp [quietEnv, netBroken] at h)⟩

theorem find_map_update (rows : List Row) (id : Int) (f : Row → Row) (row : Row)
    (hf : ∀ r, (f r).id = r.id)
    (h : rows.find? (fun r => r.id == id) = some row) :
    (rows.map f).find? (fun r => r.id == id) = some (f row) := by
  induction rows with
  | nil => simp at h
  | cons a rest ih =>
    simp only [List.map_cons, List.find?_cons] at h ⊢
    rw [hf a]
    by_cases ha : (a.id == id) = true
    · simp only [ha] at h ⊢
      cases h
      rfl
    · simp only [ha] at h ⊢
      exact ih h

theorem selectByID_id (db : DB) (id : Int) (row : Row) (h : selectByID db id = some row) :
    row.id = id := by
  have := List.find?_some h
  simpa using this

theorem selectByID_updateRow (db : DB) (id : Int) (title : String) (completed : Bool)
    (userID : Option Int) (now : Nat) (row : Row) (h : selectByID db id = some row) :
    selectByID (updateRow db id title completed userID now) id =
      some ⟨row.id, title, completed, userID, row.createdAt,
        if row.title = title ∧ row.completed = completed ∧ row.userID = userID
        then row.updatedAt else now⟩ := by
  have hid := selectByID_id db id row h
  unfold selectByID updateRow at *
  have := find_map_update db.rows id (fun r =>
      if r.id = id then
        ⟨r.id, title, completed, userID, r.createdAt,
          if r.title = title ∧ r.completed = completed ∧ r.userID = userID
          then r.updatedAt else now⟩
      else r) row (by intro r; by_cases hr : r.id = id <;> simp [hr]) h
  simpa [hid] using this

/-- The value the handler passes to the UPDATE statement for each column. -/
theorem updateTodo_ok (env : Env) (db : DB) (p : UpdatePayload) (id : Int) (row : Row)
    (hrow : selectByID db id = some row) (hf : ∀ k, env.dbFault k = none)
    (hv : ∀ uid, p.userID = some uid → validateUserExists env uid = none) :
    updateTodo env db (some p) id =
      (jsonResp 200 (encodeTodo (scanTodo
          ⟨row.id, p.title.getD row.title, p.completed.getD row.completed,
            (match p.userID with
             | some u => some u
             | none => row.userID),
            row.createdAt,
            if row.title = p.title.getD row.title ∧
               row.completed = p.completed.getD row.completed ∧
               row.userID = (match p.userID with
                 | some u => some u
                 | none => row.userID)
            then row.updatedAt else env.now⟩)),
        updateRow db id (p.title.getD row.title) (p.completed.getD row.completed)
          (match p.userID with
           | some u => some u
           | none => row.userID) env.now) := by
  have hsel := selectByID_updateRow db id (p.title.getD row.title)
    (p.completed.getD row.completed)
    (match p.userID with
     | some u => some u
     | none => row.userID) env.now row hrow
  obtain ⟨pt, pc, pu⟩ := p
  unfold updateTodo
  cases pt <;> cases pc <;> cases pu <;>
    simp_all [scanTodo, hf 0, hf 1, hf 2, hrow]

/-- An update whose `user_id` fails validation answers 400 and writes nothing. -/
theorem updateTodo_rejected_user (env : Env) (db : DB) (p : UpdatePayload) (id uid : Int)
    (row : Row) (err : String) (hrow : selectByID db id = some row)
    (hf : env.dbFault 0 = none) (hu : p.userID = some uid)
    (hv : validateUserExists env uid = some err) :
    updateTodo env db (some p) id = (errorResp 400 err, db) := by
  unfold updateTodo
  simp [hf, hrow, hu, hv]

/-- The UPDATE statement leaves every row with another id as it was. -/
theorem selectByID_updateRow_other (db : DB) (id other : Int) (title : String)
    (completed : Bool) (userID : Option Int) (now : Nat) (hne : other ≠ id) :
    selectByID (updateRow db id title completed userID now) other = selectByID db other := by
  unfold selectByID updateRow
  simp only
  induction db.rows with
  | nil => rfl
  | cons a rest ih =>
    simp only [List.map_cons, List.find?_cons]
    by_cases ha : a.id = id
    · have h1 : ¬ (a.id == other) = true := by
        simp only [beq_iff_eq]
        intro h
        exact hne (h ▸ ha)
      have h2 : ¬ (id == other) = true := by
        simp only [beq_iff_eq]
        exact fun h => hne h.symm
      simp only [ha, if_true, h2] at h1 ⊢
      simpa [ha] using ih
    · simp only [ha, if_false]
      by_cases hb : (a.id == other) = true
      · simp [hb]
      · simp only [hb]
        exact ih

/-- What the merge of `updateTodo` makes of a row and a payload: the id is
kept, and each of title, completed and user_id is the payload value when the
field is present and the prior value when it is absent. -/
theorem merged_fields (env : Env) (db : DB) (p : UpdatePayload) (id : Int) (row : Row)
    (hrow : selectByID db id = some row) (hf : ∀ k, env.dbFault k = none)
    (hv : ∀ uid, p.userID = some uid → validateUserExists env uid = none) :
    ∃ written : Row,
      selectByID (updateTodo env db (some p) id).2 id = some written ∧
      (updateTodo env db (some p) id).1 = jsonResp 200 (encodeTodo (scanTodo written)) ∧
      written.id = row.id ∧
      (∀ t, p.title = some t → written.title = t) ∧
      (p.title = none → written.title = row.title) ∧
      (∀ c, p.completed = some c → written.completed = c) ∧
      (p.completed = none → written.completed = row.completed) ∧
      (∀ u, p.userID = some u → written.userID = some u) ∧
      (p.userID = none → written.userID = row.userID) := by
  rw [updateTodo_ok env db p id row hrow hf hv]
  refine ⟨_, selectByID_updateRow db id _ _ _ env.now row hrow, rfl, rfl, ?_, ?_, ?_, ?_, ?_, ?_⟩
  · intro t ht; simp [ht]
  · intro ht; simp [ht]
  · intro c hc; simp [hc]
  · intro hc; simp [hc]
  · intro u hu; simp [hu]
  · intro hu; simp [hu]

/-- C1 (as stated it fails): on a table whose row 1 has `user_id` 4, the update
payload holding only `user_id: 9`, with the user service answering 404, is
answered 400 and the table is left as it was, so no row is written in which
`user_id` equals the payload's value. -/
theorem rejected_user_id_is_not_written :
    selectByID db2 1 = some ⟨1, "buy milk", false, some 4, 3, 3⟩ ∧
    (updateTodo (quietEnv netNotFound) db2 (some ⟨none, none, some 9⟩) 1).1.status = 400 ∧
    (updateTodo (quietEnv netNotFound) db2 (some ⟨none, none, some 9⟩) 1).2 = db2 ∧
    ¬ ∃ written : Row,
      selectByID (updateTodo (quietEnv netNotFound) db2 (some ⟨none, none, some 9⟩) 1).2 1
        = some written ∧
      written.userID = some 9 := by
  have hdb : (updateTodo (quietEnv netNotFound) db2 (some ⟨none, none, some 9⟩) 1).2 = db2 := by
    decide
  refine ⟨by decide, by decide, hdb, ?_⟩
  rintro ⟨written, hsel, hu⟩
  rw [hdb] at hsel
  have hrow : selectByID db2 1 = some ⟨1, "buy milk", false, some 4, 3, 3⟩ := by decide
  rw [hrow] at hsel
  cases hsel
  exact absurd hu (by decide)

/-- C1 (amended): for an existing row and storage that does not fail,
(1) an update payload that has no `user_id`, or whose `user_id` passes the
user-service validation, is answered 200 and the row written keeps the id and
has, for each of title, completed and user_id, the payload value when the field
is present and the prior value when it is absent; (2) a payload whose `user_id`
fails validation is answered 400 with the validation error and nothing is
written; (3) a payload holding only `completed: true` is answered 200 and
leaves title and user_id as they were. -/
theorem updateTodo_merge (env : Env) (db : DB) (p : UpdatePayload) (id : Int) (row : Row)
    (hrow : selectByID db id = some row) (hf : ∀ k, env.dbFault k = none) :
    ((∀ uid, p.userID = some uid → validateUserExists env uid = none) →
      ∃ written : Row,
        selectByID (updateTodo env db (some p) id).2 id = some written ∧
        (updateTodo env db (some p) id).1.status = 200 ∧
        (updateTodo env db (some p) id).1 = jsonResp 200 (encodeTodo (scanTodo written)) ∧
        written.id = row.id ∧
        (∀ t, p.title = some t → written.title = t) ∧
        (p.title = none → written.title = row.title) ∧
        (∀ c, p.completed = some c → written.completed = c) ∧
        (p.completed = none → written.completed = row.completed) ∧
        (∀ u, p.userID = some u → written.userID = some u) ∧
        (p.userID = none → written.userID = row.userID)) ∧
    (∀ uid err, p.userID = some uid → validateUserExists env uid = some err →
      updateTodo env db (some p) id = (errorResp 400 err, db)) ∧
    (p = ⟨none, some true, none⟩ →
      ∃ written : Row,
        selectByID (updateTodo env db (some p) id).2 id = some written ∧
        (updateTodo env db (some p) id).1.status = 200 ∧
        written.id = row.id ∧ written.title = row.title ∧
        written.userID = row.userID ∧ written.completed = true) := by
  refine ⟨?_, ?_, ?_⟩
  · intro hv
    obtain ⟨w, h1, h2, h3⟩ := merged_fields env db p id row hrow hf hv
    exact ⟨w, h1, by rw [h2]; rfl, h2, h3⟩
  · intro uid err hu hval
    exact updateTodo_rejected_user env db p id uid row err hrow (hf 0) hu hval
  · intro hp
    subst hp
    obtain ⟨w, h1, h2, h3, _, h5, h6, _, _, h9⟩ :=
      merged_fields env db ⟨none, some true, none⟩ id row hrow hf (by intro uid h; simp at h)
    exact ⟨w, h1, by rw [h2]; rfl, h3, h5 rfl, h9 rfl, h6 true rfl⟩

theorem updateTodo_merge_witness :
    (∃ written : Row,
      selectByID (updateTodo (quietEnv netNotFound) db2 (some ⟨none, some true, none⟩) 1).2 1
        = some written ∧
      (updateTodo (quietEnv netNotFound) db2 (some ⟨none, some true, none⟩) 1).1.status = 200 ∧
      written.id = 1 ∧ written.title = "buy milk" ∧ written.userID = some 4 ∧
      written.completed = true) ∧
    (∃ written : Row,
      selectByID (updateTodo envOnly4 db2 (some ⟨some "tea", none, some 4⟩) 2).2 2
        = some written ∧
      written.title = "tea" ∧ written.completed = true ∧ written.userID = some 4) ∧
    updateTodo (quietEnv netNotFound) db2 (some ⟨none, none, some 9⟩) 1
      = (errorResp 400 "user not found", db2) := by
  refine ⟨?_, ?_, ?_⟩
  · exact (updateTodo_merge (quietEnv netNotFound) db2 ⟨none, some true, none⟩ 1
      ⟨1, "buy milk", false, some 4, 3, 3⟩ (by decide) (fun _ => rfl)).2.2 rfl
  · obtain ⟨w, h1, _, _, _, h5, _, _, h8, h9, _⟩ :=
      (updateTodo_merge envOnly4 db2 ⟨some "tea", none, some 4⟩ 2
        ⟨2, "walk", true, none, 5, 5⟩ (by decide) (fun _ => rfl)).1
        (by
          intro uid h
          cases h
          decide)
    exact ⟨w, h1, h5 "tea" rfl, h8 rfl, h9 4 rfl⟩
  · exact (updateTodo_merge (quietEnv netNotFound) db2 ⟨none, none, some 9⟩ 1
      ⟨1, "buy milk", false, some 4, 3, 3⟩ (by decide) (fun _ => rfl)).2.1 9
      "user not found" rfl (by decide)

theorem listLoop_ok (env : Env) (flag : Bool) (hf : ∀ k, env.dbFault k = none)
    (rows : List Row) (k : Nat) (acc : Option (List Todo)) :
    listLoop env flag rows k acc =
      .ok (match rows with
        | [] => acc
        | _ :: _ => some (acc.getD [] ++ enrichFrom env flag k rows)) := by
  induction rows generalizing k acc with
  | nil => rfl
  | cons r rest ih =>
    unfold listLoop
    simp only [hf]
    rw [ih]
    cases rest with
    | nil => cases acc <;> simp [appendTodo, enrichFrom]
    | cons r2 rest2 => cases acc <;> simp [appendTodo, enrichFrom]

theorem enrichFrom_getElem (env : Env) (flag : Bool) (rows : List Row) (k i : Nat) :
    (enrichFrom env flag k rows)[i]? = (rows[i]?).map (enrich env flag (k + i)) := by
  induction rows generalizing k i with
  | nil => simp [enrichFrom]
  | cons r rest ih =>
    cases i with
    | zero => simp [enrichFrom]
    | succ j =>
      simp only [enrichFrom, List.getElem?_cons_succ]
      rw [ih (k + 1) j]
      have h : k + 1 + j = k + (j + 1) := by omega
      rw [h]

theorem enrichFrom_false (env : Env) (rows : List Row) (k : Nat) :
    enrichFrom env false k rows = rows.map scanTodo := by
  induction rows generalizing k with
  | nil => rfl
  | cons r rest ih => simp [enrichFrom, enrich, ih]

theorem enrich_core (env : Env) (flag : Bool) (k : Nat) (r : Row) :
    (enrich env flag k r).core = scanTodo r := by
  unfold enrich
  split
  · split <;> simp [Todo.core, scanTodo]
  · simp [Todo.core, scanTodo]

theorem enrichFrom_core (env : Env) (flag : Bool) (rows : List Row) (k : Nat) :
    (enrichFrom env flag k rows).map Todo.core = rows.map scanTodo := by
  induction rows generalizing k with
  | nil => rfl
  | cons r rest ih => simp [enrichFrom, enrich_core, ih]

theorem enrich_user (env : Env) (k : Nat) (r : Row) :
    (enrich env true k r).user =
      match r.userID with
      | none => none
      | some uid =>
        match fetchUserByID env k uid with
        | (u, none) => u
        | (_, some _) => none := by
  unfold enrich
  cases hr : r.userID with
  | none => simp [scanTodo, hr]
  | some uid =>
    simp only [scanTodo, hr]
    split <;> simp_all

theorem listTodos_ok (env : Env) (db : DB) (r : Request) (hf : ∀ k, env.dbFault k = none) :
    listTodos env db r =
      jsonResp 200 (encodeTodos (match selectAllDesc db with
        | [] => none
        | row :: rows =>
          some (enrichFrom env (queryGet r.query "include_user" == "true") 0 (row :: rows)))) := by
  unfold listTodos
  simp only [hf, listLoop_ok env _ hf]
  cases selectAllDesc db <;> simp

theorem selectAllDesc_sorted (db : DB) :
    (selectAllDesc db).Sorted (fun a b => a.id ≥ b.id) :=
  List.sorted_insertionSort _ _

theorem selectAllDesc_perm (db : DB) : (selectAllDesc db).Perm db.rows :=
  List.perm_insertionSort _ _

theorem enrich_userID (env : Env) (flag : Bool) (k : Nat) (r : Row) :
    (enrich env flag k r).userID = r.userID := by
  have h := congrArg Todo.userID (enrich_core env flag k r)
  simpa [Todo.core, scanTodo] using h

theorem enrich_user_iff (env : Env) (k : Nat) (r : Row) :
    ((enrich env true k r).user.isSome ↔
      ∃ uid, r.userID = some uid ∧ (fetchUserByID env k uid).2 = none) ∧
    (∀ uid, r.userID = some uid → (fetchUserByID env k uid).2 = none →
      (enrich env true k r).user = (fetchUserByID env k uid).1) := by
  rw [enrich_user]
  cases hr : r.userID with
  | none => simp
  | some uid =>
    have hnn : fetchUserByID env k uid ≠ (none, none) :=
      fetchUserFrom_never_nil_nil env.decodeUser (env.net k uid)
    simp only [Option.some.injEq, exists_eq_left', forall_eq']
    generalize fetchUserByID env k uid = x at hnn ⊢
    rcases x with ⟨u, e⟩
    cases e <;> cases u <;> simp_all

theorem listed_todos (env : Env) (db : DB) (r : Request) (hf : ∀ k, env.dbFault k = none) :
    ∃ ts : Option (List Todo),
      listTodos env db r = jsonResp 200 (encodeTodos ts) ∧
      ts.getD [] =
        enrichFrom env (queryGet r.query "include_user" == "true") 0 (selectAllDesc db) ∧
      (ts = none ↔ selectAllDesc db = []) := by
  rw [listTodos_ok env db r hf]
  cases h : selectAllDesc db with
  | nil => exact ⟨none, rfl, by simp [enrichFrom], by simp⟩
  | cons row rows => exact ⟨some _, rfl, by simp, by simp⟩

theorem encodeTodo_field_core (t : Todo) :
    (encodeTodo t).field "id" = some (.num t.id) ∧
    (encodeTodo t).field "title" = some (.str t.title) ∧
    (encodeTodo t).field "completed" = some (.bool t.completed) ∧
    (encodeTodo t).field "user_id" = t.userID.map Json.num ∧
    (encodeTodo t).field "created_at" = some (.timestamp t.createdAt) ∧
    (encodeTodo t).field "updated_at" = some (.timestamp t.updatedAt) := by
  cases hu : t.userID <;> cases hv : t.user <;>
    simp [encodeTodo, Json.field, hu, hv, List.find?]

theorem encodeTodo_field_user (t : Todo) :
    (encodeTodo t).field "user" = t.user.map encodeUser := by
  cases hu : t.userID <;> cases hv : t.user <;>
    simp [encodeTodo, Json.field, hu, hv, List.find?]

theorem encodeTodo_field_other (t : Todo) (key : String) (hkey : key ≠ "user") :
    (encodeTodo t).field key = (encodeTodo t.core).field key := by
  have hk : ("user" == key) = false := by
    simp only [beq_eq_false_iff_ne, ne_eq]
    exact fun h => hkey h.symm
  cases hu : t.userID <;> cases hv : t.user <;>
    simp [encodeTodo, Json.field, Todo.core, hu, hv, List.find?, hk]

/-- Whether the loop of `listTodos` fails, and with which error, depends on the
storage faults only, not on the flag or on the slice built so far. -/
theorem listLoop_error_indep (env : Env) (flag flag' : Bool) (rows : List Row) (k : Nat)
    (acc acc' : Option (List Todo)) :
    (∀ e, listLoop env flag rows k acc = .error e ↔ listLoop env flag' rows k acc' = .error e) := by
  induction rows generalizing k acc acc' with
  | nil => intro e; simp [listLoop]
  | cons r rest ih =>
    intro e
    unfold listLoop
    cases env.dbFault (k + 1) with
    | some e' => simp
    | none => exact ih _ _ _ e

theorem listTodos_status (env : Env) (db : DB) (r : Request) :
    ((listTodos env db r).status = 200 ∨ (listTodos env db r).status = 500) ∧
    ((listTodos env db r).status = 500 ↔
      (env.dbFault 0 ≠ none ∨ ∃ e, listLoop env false (selectAllDesc db) 0 none = .error e)) := by
  unfold listTodos
  dsimp only
  cases h0 : env.dbFault 0 with
  | some e => simp [errorResp]
  | none =>
    dsimp only
    cases hl : listLoop env (queryGet r.query "include_user" == "true") (selectAllDesc db) 0 none with
    | error e =>
      have := (listLoop_error_indep env _ false (selectAllDesc db) 0 none none e).1 hl
      simp [errorResp, this]
    | ok todos =>
      have hne : ∀ e, listLoop env false (selectAllDesc db) 0 none ≠ .error e := by
        intro e he
        have := (listLoop_error_indep env false
          (queryGet r.query "include_user" == "true") (selectAllDesc db) 0 none none e).1 he
        rw [hl] at this
        cases this
      simp [jsonResp, hne]

/-- C4 (as stated it fails): when the storage refuses the query, `listTodos`
with `include_user=true` answers 500 with a JSON error body, not 200. -/
theorem listTodos_storage_down :
    (listTodos envStorageDown db2
      ⟨"GET", "/api/todos", [("include_user", "true")], ""⟩).status = 500 ∧
    (listTodos envStorageDown db2
      ⟨"GET", "/api/todos", [("include_user", "true")], ""⟩).status ≠ 200 ∧
    (listTodos envStorageDown db2
      ⟨"GET", "/api/todos", [("include_user", "true")], ""⟩).body.isErrorObject = true := by
  refine ⟨by decide, by decide, by decide⟩

/-- C4 (amended): for every table, every outcome of the user-service lookups
and every behaviour of the storage, `listTodos` with `include_user=true`
answers with the same status as `listTodos` without the flag, so a failed
lookup never turns the answer into an error. When the storage does not fail,
both answer 200 and the two bodies list the same rows, in the same order (id
descending), one JSON object per row with the same fields apart from `user`,
among them the row's id, title, completed and user_id; without the flag no
object has a `user` field; with the flag the object at position `k` has a
`user` field exactly when the row's `user_id` is non-null and the lookup made
for it returned no error, and the field then holds the id, email and name that
the lookup returned. -/
theorem listTodos_include_user (env : Env) (db : DB) (rq rq' : Request)
    (hq : queryGet rq.query "include_user" = "true")
    (hq' : queryGet rq'.query "include_user" ≠ "true") :
    (listTodos env db rq).status = (listTodos env db rq').status ∧
    ((∀ k, env.dbFault k = none) →
      (listTodos env db rq).status = 200 ∧ (listTodos env db rq').status = 200 ∧
      (selectAllDesc db).Sorted (fun a b => a.id ≥ b.id) ∧
      (selectAllDesc db).Perm db.rows ∧
      ∃ items items' : List Json,
        (listTodos env db rq).body =
          Body.json (if (selectAllDesc db).isEmpty then Json.null else Json.arr items) ∧
        (listTodos env db rq').body =
          Body.json (if (selectAllDesc db).isEmpty then Json.null else Json.arr items') ∧
        items.length = (selectAllDesc db).length ∧
        items'.length = (selectAllDesc db).length ∧
        ∀ k r, (selectAllDesc db)[k]? = some r →
          ∃ j j' : Json, items[k]? = some j ∧ items'[k]? = some j' ∧
            (∀ key, key ≠ "user" → j.field key = j'.field key) ∧
            j.field "id" = some (Json.num r.id) ∧
            j.field "title" = some (Json.str r.title) ∧
            j.field "completed" = some (Json.bool r.completed) ∧
            j.field "user_id" = r.userID.map Json.num ∧
            j'.field "user" = none ∧
            ((j.field "user").isSome ↔
              ∃ uid, r.userID = some uid ∧ (fetchUserByID env k uid).2 = none) ∧
            (∀ uid u, r.userID = some uid → fetchUserByID env k uid = (some u, none) →
              j.field "user" = some (Json.obj [("id", Json.num u.id),
                ("email", Json.str u.email), ("name", Json.str u.name)]))) := by
  constructor
  · obtain ⟨h1, h2⟩ := listTodos_status env db rq
    obtain ⟨h1', h2'⟩ := listTodos_status env db rq'
    by_cases hc : env.dbFault 0 ≠ none ∨
        ∃ e, listLoop env false (selectAllDesc db) 0 none = .error e
    · rw [h2.2 hc, h2'.2 hc]
    · have hn : (listTodos env db rq).status ≠ 500 := fun h => hc (h2.1 h)
      have hn' : (listTodos env db rq').status ≠ 500 := fun h => hc (h2'.1 h)
      rcases h1 with h1 | h1
      · rcases h1' with h1' | h1'
        · rw [h1, h1']
        · exact absurd h1' hn'
      · exact absurd h1 hn
  · intro hf
    obtain ⟨ts, e1, e2, e3⟩ := listed_todos env db rq hf
    obtain ⟨ts', e1', e2', e3'⟩ := listed_todos env db rq' hf
    have hflag : (queryGet rq.query "include_user" == "true") = true := by simp [hq]
    have hflag' : (queryGet rq'.query "include_user" == "true") = false := by simp [hq']
    rw [hflag] at e2
    rw [hflag', enrichFrom_false] at e2'
    have hlen : (enrichFrom env true 0 (selectAllDesc db)).length = (selectAllDesc db).length := by
      have := congrArg List.length (enrichFrom_core env true (selectAllDesc db) 0)
      simpa using this
    have hbody : ∀ (opt : Option (List Todo)) (l : List Todo),
        opt.getD [] = l → (opt = none ↔ selectAllDesc db = []) →
        encodeTodos opt =
          (if (selectAllDesc db).isEmpty then Json.null else Json.arr (l.map encodeTodo)) := by
      intro opt l hl hnone
      cases opt with
      | none =>
        have : selectAllDesc db = [] := hnone.1 rfl
        simp [this, encodeTodos]
      | some l0 =>
        have hne : selectAllDesc db ≠ [] := fun h => by
          have := hnone.2 h
          cases this
        have hl0 : l0 = l := by simpa using hl
        subst hl0
        have hemp : (selectAllDesc db).isEmpty = false := by
          cases hs : selectAllDesc db with
          | nil => exact absurd hs hne
          | cons a b => rfl
        simp [hemp, encodeTodos]
    refine ⟨by rw [e1]; rfl, by rw [e1']; rfl, selectAllDesc_sorted db, selectAllDesc_perm db,
      (enrichFrom env true 0 (selectAllDesc db)).map encodeTodo,
      ((selectAllDesc db).map scanTodo).map encodeTodo, ?_, ?_, ?_, ?_, ?_⟩
    · rw [e1]
      simp only [jsonResp]
      rw [hbody ts _ e2 e3]
    · rw [e1']
      simp only [jsonResp]
      rw [hbody ts' _ e2' e3']
    · rw [List.length_map, hlen]
    · simp
    · intro k r hk
      refine ⟨encodeTodo (enrich env true k r), encodeTodo (scanTodo r), ?_, ?_, ?_⟩
      · rw [List.getElem?_map, enrichFrom_getElem, hk]
        simp
      · rw [List.getElem?_map, List.getElem?_map, hk]
        rfl
      · have hother : ∀ key, key ≠ "user" →
            (encodeTodo (enrich env true k r)).field key =
              (encodeTodo (scanTodo r)).field key := by
          intro key hkey
          rw [encodeTodo_field_other _ key hkey, enrich_core]
        obtain ⟨c1, c2, c3, c4, _, _⟩ := encodeTodo_field_core (scanTodo r)
        obtain ⟨u1, u2⟩ := enrich_user_iff env k r
        refine ⟨hother, ?_, ?_, ?_, ?_, ?_, ?_, ?_⟩
        · rw [hother "id" (by decide), c1]; rfl
        · rw [hother "title" (by decide), c2]; rfl
        · rw [hother "completed" (by decide), c3]; rfl
        · rw [hother "user_id" (by decide), c4]; rfl
        · rw [encodeTodo_field_user]; rfl
        · rw [encodeTodo_field_user, ← u1]
          cases (enrich env true k r).user <;> simp
        · intro uid u hr hfu
          rw [encodeTodo_field_user, u2 uid hr (by rw [hfu]), hfu]
          rfl

theorem listTodos_include_user_witness :
    (listTodos envOnly4 db2 ⟨"GET", "/api/todos", [("include_user", "true")], ""⟩).status = 200 ∧
    (listTodos envOnly4 db2 ⟨"GET", "/api/todos", [], ""⟩).status = 200 ∧
    ∃ items items' : List Json,
      (listTodos envOnly4 db2 ⟨"GET", "/api/todos", [("include_user", "true")], ""⟩).body
        = Body.json (Json.arr items) ∧
      (listTodos envOnly4 db2 ⟨"GET", "/api/todos", [], ""⟩).body = Body.json (Json.arr items') ∧
      items.length = 2 ∧ items'.length = 2 ∧
      ∃ j j' : Json, items[1]? = some j ∧ items'[1]? = some j' ∧
        j.field "id" = some (Json.num 1) ∧
        j.field "user" = some (Json.obj [("id", Json.num 4), ("email", Json.str "a@x.com"),
          ("name", Json.str "A")]) ∧
        j'.field "user" = none := by
  obtain ⟨h200, h200', _, _, items, items', hb, hb', hl, hl', hrows⟩ :=
    (listTodos_include_user envOnly4 db2
      ⟨"GET", "/api/todos", [("include_user", "true")], ""⟩ ⟨"GET", "/api/todos", [], ""⟩
      (by decide) (by decide)).2 (fun _ => rfl)
  have hemp : (selectAllDesc db2).isEmpty = false := by decide
  have hlen : (selectAllDesc db2).length = 2 := by decide
  rw [hemp] at hb hb'
  rw [hlen] at hl hl'
  obtain ⟨j, j', hj, hj', _, hid, _, _, _, hnone, _, huser⟩ :=
    hrows 1 ⟨1, "buy milk", false, some 4, 3, 3⟩ (by decide)
  exact ⟨h200, h200', items, items', hb, hb', hl, hl', j, j', hj, hj', hid,
    huser 4 ⟨4, "a@x.com", "A"⟩ rfl (by decide), hnone⟩

/-- `createTodo` keeps every stored title non-blank. -/
theorem createTodo_titlesOk (env : Env) (db : DB) (decoded : Option CreatePayload)
    (h : TitlesOk db) : TitlesOk (createTodo env db decoded).2 := by
  unfold createTodo
  cases decoded with
  | none => exact h
  | some p =>
    simp only
    by_cases ht : trimSpace p.title = ""
    · simpa [ht] using h
    · simp only [ht, if_false]
      cases p.userID.bind (validateUserExists env) with
      | some err => exact h
      | none =>
        simp only
        cases env.dbFault 0 with
        | some e => exact h
        | none =>
          have hnew : TitlesOk (insertTodo db p.title p.userID env.now).1 := by
            intro r hr
            simp only [insertTodo, List.mem_append, List.mem_singleton] at hr
            rcases hr with hr | hr
            · exact h r hr
            · rw [hr]; exact ht
          simp only
          split <;> exact hnew

/-- `deleteTodo` keeps every stored title non-blank. -/
theorem deleteTodo_titlesOk (env : Env) (db : DB) (id : Int) (h : TitlesOk db) :
    TitlesOk (deleteTodo env db id).2 := by
  have hdel : TitlesOk (deleteRow db id).1 := by
    intro r hr
    simp only [deleteRow, List.mem_filter] at hr
    exact h r hr.1
  unfold deleteTodo
  cases env.dbFault 0 with
  | some e => exact h
  | none =>
    simp only
    split <;> exact hdel

theorem updateRow_titlesOk (db : DB) (id : Int) (title : String) (completed : Bool)
    (userID : Option Int) (now : Nat) (h : TitlesOk db) (ht : trimSpace title ≠ "") :
    TitlesOk (updateRow db id title completed userID now) := by
  intro r hr
  simp only [updateRow, List.mem_map] at hr
  obtain ⟨a, ha, rfl⟩ := hr
  by_cases hid : a.id = id
  · simpa [hid] using ht
  · simpa [hid] using h a ha

/-- `updateTodo` keeps every stored title non-blank when the payload has no
title or a title that is non-empty after trimming. -/
theorem updateTodo_titlesOk (env : Env) (db : DB) (decoded : Option UpdatePayload) (id : Int)
    (h : TitlesOk db)
    (ht : ∀ p t, decoded = some p → p.title = some t → trimSpace t ≠ "") :
    TitlesOk (updateTodo env db decoded id).2 := by
  unfold updateTodo
  cases decoded with
  | none => exact h
  | some p =>
    dsimp only
    cases env.dbFault 0 with
    | some e => exact h
    | none =>
      cases hsel : selectByID db id with
      | none => exact h
      | some row =>
        dsimp only
        have hrow : trimSpace row.title ≠ "" := h row (List.mem_of_find?_eq_some hsel)
        cases p.userID.bind (validateUserExists env) with
        | some err => exact h
        | none =>
          dsimp only
          cases env.dbFault 1 with
          | some e => exact h
          | none =>
            dsimp only
            have hp : ∀ t, p.title = some t → trimSpace t ≠ "" := fun t => ht p t rfl
            obtain ⟨pt, pc, pu⟩ := p
            split <;>
              (apply updateRow_titlesOk db id _ _ _ _ h
               cases pt <;> cases pc <;> cases pu <;> simp_all [scanTodo])

/-- C2 (the code departs from it): a table holding a todo whose title is blank
is reachable from the empty table: create a todo titled "buy milk", then
update it with the payload holding only the title of two spaces; `updateTodo`
answers 200 and stores that title. -/
theorem blank_title_reachable :
    (updateTodo (quietEnv netNotFound)
        (createTodo (quietEnv netNotFound) DB.init (some ⟨"buy milk", none⟩)).2
        (some ⟨some "  ", none, none⟩) 1).1.status = 200 ∧
    (updateTodo (quietEnv netNotFound)
        (createTodo (quietEnv netNotFound) DB.init (some ⟨"buy milk", none⟩)).2
        (some ⟨some "  ", none, none⟩) 1).2.rows = [⟨1, "  ", false, none, 7, 7⟩] ∧
    trimSpace "  " = "" ∧
    ∃ db, Reachable db ∧ ¬ TitlesOk db := by
  refine ⟨by decide, by decide, by decide, ?_⟩
  refine ⟨_, Reachable.update (quietEnv netNotFound) _ (some ⟨some "  ", none, none⟩) 1
    (Reachable.create (quietEnv netNotFound) DB.init (some ⟨"buy milk", none⟩)
      Reachable.init), ?_⟩
  intro h
  exact h ⟨1, "  ", false, none, 7, 7⟩ (by decide) (by decide)

/-- C7 (as stated it fails): GET on `/api/todos/5`, a path whose id segment
parses, and PUT on `/api/todos` are answered 404, not 405. -/
theorem wrong_method_is_not_405 :
    parseID "/api/todos/5" "/api/todos/" = (5, true) ∧
    (handleTodos (quietEnv netNotFound) db2 ⟨"GET", "/api/todos/5", [], ""⟩).1.status = 404 ∧
    (handleTodos (quietEnv netNotFound) db2 ⟨"GET", "/api/todos/5", [], ""⟩).1.status ≠ 405 ∧
    (handleTodos (quietEnv netNotFound) db2 ⟨"PUT", "/api/todos", [], ""⟩).1.status = 404 ∧
    (handleTodos (quietEnv netNotFound) db2 ⟨"PUT", "/api/todos", [], ""⟩).1.status ≠ 405 := by
  refine ⟨by decide, by decide, by decide, by decide, by decide⟩

/-- C7 (amended): a request whose method is none of OPTIONS, GET, POST, PUT
and DELETE is answered 405 with the JSON error body "method not allowed",
whatever the path, and the table is untouched; GET or POST on a path other than
`/api/todos`, and PUT or DELETE on a path whose id segment does not parse, are
answered 404 and leave the table untouched. -/
theorem handleTodos_method_dispatch (env : Env) (db : DB) (r : Request) :
    (r.method ∉ ["OPTIONS", "GET", "POST", "PUT", "DELETE"] →
      handleTodos env db r = (errorResp 405 "method not allowed", db) ∧
      (handleTodos env db r).1.status = 405 ∧
      (handleTodos env db r).1.body.isErrorObject = true) ∧
    ((r.method = "GET" ∨ r.method = "POST") → r.path ≠ "/api/todos" →
      (handleTodos env db r).1.status = 404 ∧ (handleTodos env db r).2 = db) ∧
    ((r.method = "PUT" ∨ r.method = "DELETE") → (parseID r.path "/api/todos/").2 = false →
      (handleTodos env db r).1.status = 404 ∧ (handleTodos env db r).2 = db) := by
  refine ⟨?_, ?_, ?_⟩
  · intro h
    simp only [List.mem_cons, List.mem_singleton, List.mem_nil_iff, or_false, not_or] at h
    obtain ⟨h1, h2, h3, h4, h5⟩ := h
    have : handleTodos env db r = (errorResp 405 "method not allowed", db) := by
      unfold handleTodos
      simp [h1, h2, h3, h4, h5]
    rw [this]
    exact ⟨rfl, rfl, rfl⟩
  · intro hm hp
    unfold handleTodos
    rcases hm with hm | hm <;> simp [hm, hp, httpNotFound]
  · intro hm hp
    unfold handleTodos
    rcases hpid : parseID r.path "/api/todos/" with ⟨i, ok⟩
    rw [hpid] at hp
    simp only at hp
    subst hp
    rcases hm with hm | hm <;> simp [hm, httpNotFound]

theorem handleTodos_method_dispatch_witness :
    (handleTodos (quietEnv netNotFound) db2 ⟨"PATCH", "/api/todos/5", [], ""⟩).1.status = 405 ∧
    (handleTodos (quietEnv netNotFound) db2 ⟨"GET", "/api/todos/5", [], ""⟩).1.status = 404 ∧
    (handleTodos (quietEnv netNotFound) db2 ⟨"PUT", "/api/todos", [], ""⟩).1.status = 404 :=
  ⟨((handleTodos_method_dispatch (quietEnv netNotFound) db2
      ⟨"PATCH", "/api/todos/5", [], ""⟩).1 (by decide)).2.1,
    ((handleTodos_method_dispatch (quietEnv netNotFound) db2
      ⟨"GET", "/api/todos/5", [], ""⟩).2.1 (Or.inl rfl) (by decide)).1,
    ((handleTodos_method_dispatch (quietEnv netNotFound) db2
      ⟨"PUT", "/api/todos", [], ""⟩).2.2 (Or.inl rfl) (by decide)).1⟩

/-- C9 (the code departs from it): with no rows in the table `listTodos`
answers 200 with the JSON value `null`, not the empty array, both on the table
right after start-up and after the only todo has been created and deleted. -/
theorem listTodos_empty_is_null :
    listTodos (quietEnv netNotFound) DB.init ⟨"GET", "/api/todos", [], ""⟩
      = jsonResp 200 Json.null ∧
    (deleteTodo (quietEnv netNotFound)
      (createTodo (quietEnv netNotFound) DB.init (some ⟨"buy milk", none⟩)).2 1).1.status
      = 204 ∧
    listTodos (quietEnv netNotFound)
      (deleteTodo (quietEnv netNotFound)
        (createTodo (quietEnv netNotFound) DB.init (some ⟨"buy milk", none⟩)).2 1).2
      ⟨"GET", "/api/todos", [], ""⟩ = jsonResp 200 Json.null :=
  ⟨rfl, by decide, rfl⟩

/-- With storage not failing, the body of `listTodos` is `null` when the table
has no rows and otherwise an array with one element per row. -/
theorem listTodos_body (env : Env) (db : DB) (r : Request) (hf : ∀ k, env.dbFault k = none) :
    (db.rows = [] → listTodos env db r = jsonResp 200 Json.null) ∧
    (db.rows ≠ [] → ∃ items, listTodos env db r = jsonResp 200 (Json.arr items) ∧
      items.length = db.rows.length) := by
  have hlen : (selectAllDesc db).length = db.rows.length := (selectAllDesc_perm db).length_eq
  have hlenE : ∀ (flag : Bool) (k : Nat) (rows : List Row),
      (enrichFrom env flag k rows).length = rows.length := by
    intro flag k rows
    induction rows generalizing k with
    | nil => rfl
    | cons a rest ih => simp [enrichFrom, ih]
  rw [listTodos_ok env db r hf]
  constructor
  · intro h
    have : selectAllDesc db = [] := by
      apply List.eq_nil_of_length_eq_zero
      rw [hlen, h]
      rfl
    rw [this]
    rfl
  · intro h
    cases hs : selectAllDesc db with
    | nil =>
      rw [hs] at hlen
      exact absurd (List.eq_nil_of_length_eq_zero hlen.symm) h
    | cons row rows =>
      refine ⟨_, rfl, ?_⟩
      rw [List.length_map, hlenE, ← hs, hlen]

end TodoService

namespace TodoService
open GoLib

theorem listTodos_error_shape (env : Env) (db : DB) (r : Request) :
    400 ≤ (listTodos env db r).status →
      (listTodos env db r).body.isErrorObject = true := by
  unfold listTodos
  dsimp only
  cases env.dbFault 0 with
  | some e => intro _; rfl
  | none =>
    dsimp only
    cases listLoop env (queryGet r.query "include_user" == "true") (selectAllDesc db) 0 none with
    | error e => intro _; rfl
    | ok todos => intro h; simp [jsonResp] at h

theorem createTodo_error_shape (env : Env) (db : DB) (decoded : Option CreatePayload) :
    400 ≤ (createTodo env db decoded).1.status →
      (createTodo env db decoded).1.body.isErrorObject = true := by
  unfold createTodo
  cases decoded with
  | none => intro _; rfl
  | some p =>
    dsimp only
    by_cases ht : trimSpace p.title = ""
    · simp only [ht, if_true]; intro _; rfl
    · simp only [ht, if_false]
      cases p.userID.bind (validateUserExists env) with
      | some err => intro _; rfl
      | none =>
        dsimp only
        cases env.dbFault 0 with
        | some e => intro _; rfl
        | none =>
          dsimp only
          cases env.dbFault 1 with
          | some e => intro _; rfl
          | none =>
            cases selectByID (insertTodo db p.title p.userID env.now).1
                (insertTodo db p.title p.userID env.now).2 with
            | none => intro _; rfl
            | some row => intro h; simp [jsonResp] at h

theorem updateTodo_error_shape (env : Env) (db : DB) (decoded : Option UpdatePayload)
    (id : Int) :
    400 ≤ (updateTodo env db decoded id).1.status →
      (updateTodo env db decoded id).1.body.isErrorObject = true := by
  unfold updateTodo
  cases decoded with
  | none => intro _; rfl
  | some p =>
    dsimp only
    cases env.dbFault 0 with
    | some e => intro _; rfl
    | none =>
      cases selectByID db id with
      | none => intro _; rfl
      | some row =>
        dsimp only
        cases p.userID.bind (validateUserExists env) with
        | some err => intro _; rfl
        | none =>
          dsimp only
          cases env.dbFault 1 with
          | some e => intro _; rfl
          | none =>
            dsimp only
            cases env.dbFault 2 with
            | some e => intro _; rfl
            | none =>
              generalize selectByID (updateRow db id _ _ _ env.now) id = sel
              cases sel with
              | none => intro _; rfl
              | some row1 => intro h; simp [jsonResp] at h

theorem deleteTodo_error_shape (env : Env) (db : DB) (id : Int) :
    400 ≤ (deleteTodo env db id).1.status →
      (deleteTodo env db id).1.body.isErrorObject = true := by
  unfold deleteTodo
  cases env.dbFault 0 with
  | some e => intro _; rfl
  | none =>
    dsimp only
    by_cases hn : (deleteRow db id).2 = 0
    · simp only [hn, if_true]; intro _; rfl
    · simp only [hn, if_false]; intro h; simp [noContent] at h

/-- Every answer of `handleTodos` with status 400 or above is either a JSON
object with the single field `error`, or the plain-text answer of
`http.NotFound`. -/
theorem handleTodos_error_shape (env : Env) (db : DB) (r : Request) :
    400 ≤ (handleTodos env db r).1.status →
      (handleTodos env db r).1.body.isErrorObject = true ∨
        (handleTodos env db r).1 = httpNotFound := by
  unfold handleTodos
  by_cases h1 : r.method = "OPTIONS"
  · simp only [h1, if_true]; intro h; simp [noContent] at h
  simp only [h1, if_false]
  by_cases h2 : r.method = "GET"
  · simp only [h2, if_true]
    by_cases hp : r.path = "/api/todos"
    · simp only [hp, if_true]
      intro h
      exact Or.inl (listTodos_error_shape env db r h)
    · simp only [hp, if_false]; intro _; exact Or.inr trivial
  simp only [h2, if_false]
  by_cases h3 : r.method = "POST"
  · simp only [h3, if_true]
    by_cases hp : r.path = "/api/todos"
    · simp only [hp, if_true]
      intro h
      exact Or.inl (createTodo_error_shape env db _ h)
    · simp only [hp, if_false]; intro _; exact Or.inr trivial
  simp only [h3, if_false]
  by_cases h4 : r.method = "PUT"
  · simp only [h4, if_true]
    rcases parseID r.path "/api/todos/" with ⟨i, ok⟩
    cases ok with
    | false => intro _; exact Or.inr rfl
    | true => intro h; exact Or.inl (updateTodo_error_shape env db _ _ h)
  simp only [h4, if_false]
  by_cases h5 : r.method = "DELETE"
  · simp only [h5, if_true]
    rcases parseID r.path "/api/todos/" with ⟨i, ok⟩
    cases ok with
    | false => intro _; exact Or.inr rfl
    | true => intro h; exact Or.inl (deleteTodo_error_shape env db _ h)
  simp only [h5, if_false]
  intro _
  exact Or.inl rfl

end TodoService

namespace UsersService
open GoLib

theorem listUsers_error_shape (env : Env) (db : DB) :
    400 ≤ (listUsers env db).status → (listUsers env db).body.isErrorObject = true := by
  unfold listUsers
  cases env.dbFault 0 with
  | some e => intro _; rfl
  | none =>
    dsimp only
    cases listLoop env (selectAllDesc db) 0 none with
    | error e => intro _; rfl
    | ok users => intro h; simp [jsonResp] at h

theorem createUser_error_shape (env : Env) (db : DB) (decoded : Option CreatePayload) :
    400 ≤ (createUser env db decoded).1.status →
      (createUser env db decoded).1.body.isErrorObject = true := by
  unfold createUser
  cases decoded with
  | none => intro _; rfl
  | some p =>
    dsimp only
    by_cases ht : trimSpace p.email = "" ∨ trimSpace p.name = ""
    · simp only [ht, if_true]; intro _; rfl
    · simp only [ht, if_false]
      cases env.dbFault 0 with
      | some e => intro _; rfl
      | none =>
        dsimp only
        cases env.dbFault 1 with
        | some e => intro _; rfl
        | none =>
          cases selectByID (insertUser db p.email p.name env.now).1
              (insertUser db p.email p.name env.now).2 with
          | none => intro _; rfl
          | some u => intro h; simp [jsonResp] at h

/-- Every answer of `handleUsers` with status 400 or above is a JSON object
with the single field `error`. -/
theorem handleUsers_error_shape (env : Env) (db : DB) (r : Request) :
    400 ≤ (handleUsers env db r).1.status →
      (handleUsers env db r).1.body.isErrorObject = true := by
  unfold handleUsers
  by_cases h1 : r.method = "OPTIONS"
  · simp only [h1, if_true]; intro h; simp [noContent] at h
  simp only [h1, if_false]
  by_cases h2 : r.method = "GET"
  · simp only [h2, if_true]
    exact listUsers_error_shape env db
  simp only [h2, if_false]
  by_cases h3 : r.method = "POST"
  · simp only [h3, if_true]
    exact createUser_error_shape env db _
  simp only [h3, if_false]
  intro _
  rfl

/-- Every answer of `handleUserByID` with status 400 or above is either a JSON
object with the single field `error`, or the plain-text answer of
`http.NotFound`. -/
theorem handleUserByID_error_shape (env : Env) (db : DB) (r : Request) :
    400 ≤ (handleUserByID env db r).status →
      (handleUserByID env db r).body.isErrorObject = true ∨
        handleUserByID env db r = httpNotFound := by
  unfold handleUserByID
  by_cases h1 : r.method = "OPTIONS"
  · simp only [h1, if_true]; intro h; simp [noContent] at h
  simp only [h1, if_false]
  by_cases h2 : r.method = "GET"
  · simp only [h2, ne_eq, not_true_eq_false, if_false]
    rcases parseID r.path "/api/users/" with ⟨i, ok⟩
    cases ok with
    | false => intro _; exact Or.inr rfl
    | true =>
      dsimp only
      cases env.dbFault 0 with
      | some e => intro _; exact Or.inl rfl
      | none =>
        cases selectByID db i with
        | none => intro _; exact Or.inl rfl
        | some u => intro h; simp [jsonResp] at h
  · simp only [ne_eq, h2, not_false_eq_true, if_true]
    intro _
    exact Or.inl rfl

end UsersService

/-- C8 (the code departs from it): the 404 answers that `handleTodos` and
`handleUserByID` produce through `http.NotFound`, for an id segment that does
not parse and for a method used on the wrong path, carry the plain text
"404 page not found", not a JSON object with an `error` field. -/
theorem notFound_body_is_plain_text :
    (TodoService.handleTodos (TodoService.quietEnv TodoService.netNotFound) TodoService.db2
        ⟨"PUT", "/api/todos/abc", [], ""⟩).1
      = ⟨404, "text/plain; charset=utf-8", GoLib.Body.text "404 page not found\n"⟩ ∧
    (TodoService.handleTodos (TodoService.quietEnv TodoService.netNotFound) TodoService.db2
        ⟨"PUT", "/api/todos/abc", [], ""⟩).1.body.isErrorObject = false ∧
    (TodoService.handleTodos (TodoService.quietEnv TodoService.netNotFound) TodoService.db2
        ⟨"GET", "/api/todos/5", [], ""⟩).1.status = 404 ∧
    (TodoService.handleTodos (TodoService.quietEnv TodoService.netNotFound) TodoService.db2
        ⟨"GET", "/api/todos/5", [], ""⟩).1.body.isErrorObject = false ∧
    (UsersService.handleUserByID UsersService.quietEnv UsersService.db1
        ⟨"GET", "/api/users/abc", [], ""⟩).status = 404 ∧
    (UsersService.handleUserByID UsersService.quietEnv UsersService.db1
        ⟨"GET", "/api/users/abc", [], ""⟩).body.isErrorObject = false :=
  ⟨rfl, by decide, by decide, by decide, by decide, by decide⟩

/-- C10 (the code departs from it): the users-service `parseID` accepts id
segments that the todo-service `parseID` rejects ("12abc", "0x10", "1_000",
"7/extra"), and on "010" both accept but return different ids. -/
theorem parseID_services_differ :
    (UsersService.parseID "/api/users/12abc" "/api/users/" = (12, true) ∧
      TodoService.parseID "/api/todos/12abc" "/api/todos/" = (0, false)) ∧
    (UsersService.parseID "/api/users/0x10" "/api/users/" = (16, true) ∧
      TodoService.parseID "/api/todos/0x10" "/api/todos/" = (0, false)) ∧
    (UsersService.parseID "/api/users/1_000" "/api/users/" = (1000, true) ∧
      TodoService.parseID "/api/todos/1_000" "/api/todos/" = (0, false)) ∧
    (UsersService.parseID "/api/users/7/extra" "/api/users/" = (7, true) ∧
      TodoService.parseID "/api/todos/7/extra" "/api/todos/" = (0, false)) ∧
    (UsersService.parseID "/api/users/010" "/api/users/" = (8, true) ∧
      TodoService.parseID "/api/todos/010" "/api/todos/" = (10, true)) := by
  refine ⟨⟨by decide, by decide⟩, ⟨by decide, by decide⟩, ⟨by decide, by decide⟩,
    ⟨by decide, by decide⟩, ⟨by decide, by decide⟩⟩
